import Mathlib

/-!
Verification of `cpuid_features.c`: a shallow embedding and its verified properties.

The program issues the `cpuid` instruction for a fixed set of (leaf, subleaf)
pairs, assembles the vendor and brand strings from the returned registers,
decodes seven feature bits and prints a report.

Embedding conventions
* `uint32_t` values are `Nat`s below `2 ^ 32`; `cpuid` reduces whatever the
  hardware hands back modulo `2 ^ 32`.
* The processor is an oracle indexed by the number of `cpuid` instructions
  executed so far, so that a processor whose answers change between two
  executions can be expressed; `stable q` is the oracle that answers every
  execution with the same function `q`.
* `char` buffers are lists of bytes (`Nat`s below 256) together with a log of
  the stores performed on them; a store that does not fit in the buffer is
  undefined behaviour in C and is `none` here.
* Standard output is the list of the texts written by the successive `printf`
  calls, oldest first.
-/

namespace CpuidFeatures

/-! ## Data model -/

/-- The four output registers of one execution of `cpuid`. -/
structure Regs where
  eax : Nat
  ebx : Nat
  ecx : Nat
  edx : Nat
deriving DecidableEq

/-- The processor: `hw n leaf subleaf` is what the `n`-th executed `cpuid`
instruction (counting from 0) leaves in the registers for that selector pair. -/
abbrev Hardware := Nat → Nat → Nat → Regs

/-- A processor whose answer depends on the selector pair only. -/
def stable (q : Nat → Nat → Regs) : Hardware := fun _ => q

/-- The observable state of the run: the `cpuid` instructions executed so far
(as selector pairs, oldest first) and the texts written to standard output. -/
structure Machine where
  queries : List (Nat × Nat)
  stdout : List String
deriving DecidableEq

/-- A `char` array: its bytes and the log of stores `(offset, length)`. -/
structure Buf where
  bytes : List Nat
  writes : List (Nat × Nat)
deriving DecidableEq

/-- Truncation to `uint32_t`. -/
def u32 (x : Nat) : Nat := x % 2 ^ 32

/-- The four registers as `uint32_t` values. -/
def Regs.trunc (r : Regs) : Regs := ⟨u32 r.eax, u32 r.ebx, u32 r.ecx, u32 r.edx⟩

/-- The in-memory (little-endian, x86) bytes of a `uint32_t`. -/
def le_bytes (x : Nat) : List Nat :=
  [x % 256, x / 256 % 256, x / 65536 % 256, x / 16777216 % 256]

/-- The bytes of an ASCII string literal. -/
def lit (s : String) : List Nat := s.data.map Char.toNat

/-- An uninitialised array of `n` chars whose indeterminate content is read
off `stack`. -/
def Buf.uninit (stack : Nat → Nat) (n : Nat) : Buf :=
  ⟨(List.range n).map (fun i => stack i % 256), []⟩

/-- Store `src` at byte offset `off`; `none` when it does not fit. -/
def Buf.store (b : Buf) (off : Nat) (src : List Nat) : Option Buf :=
  if off + src.length ≤ b.bytes.length then
    some ⟨b.bytes.take off ++ src ++ b.bytes.drop (off + src.length),
          b.writes ++ [(off, src.length)]⟩
  else none

/-- The call `memcpy(out + off, &x, 4)` for a `uint32_t x`, and likewise the store
`*p = x` through a `uint32_t *` pointing `off` bytes into `out`. -/
def store32 (out : Buf) (off : Nat) (x : Nat) : Option Buf :=
  out.store off (le_bytes x)

/-- The call `memset(out, c, n)`. -/
def memset (out : Buf) (c n : Nat) : Option Buf :=
  out.store 0 (List.replicate n (c % 256))

/-- The call `snprintf(out, size, fmt)` for a format without conversions: at most
`size - 1` characters followed by a NUL (nothing at all when `size` is 0). -/
def snprintf (out : Buf) (size : Nat) (fmt : String) : Option Buf :=
  if size = 0 then some out else out.store 0 ((lit fmt).take (size - 1) ++ [0])

/-- The text held by a char array: the bytes before the first NUL, each byte
value standing for the character of that code. -/
def ctext (bytes : List Nat) : String :=
  String.mk ((bytes.takeWhile (fun b => b ≠ 0)).map Char.ofNat)

/-- What `%s` prints for a char array: the bytes before the first NUL.  Reading
an array that holds no NUL runs past its end and is `none`. -/
def cstr (bytes : List Nat) : Option String :=
  if 0 ∈ bytes then some (ctext bytes) else none

/-- What `%08x` prints: lower-case hexadecimal, zero-padded to 8 digits. -/
def hex8 (x : Nat) : String :=
  let ds := Nat.toDigits 16 x
  String.mk (List.replicate (8 - ds.length) '0' ++ ds)

/-- What `%-28s` prints: the string, padded with blanks on the right to 28. -/
def pad28 (s : String) : String :=
  String.mk (s.data ++ List.replicate (28 - s.data.length) ' ')

/-- One `printf` call: the formatted text is appended to standard output. -/
def printf (text : String) (m : Machine) : Machine :=
  { m with stdout := m.stdout ++ [text] }

/-! ## The program -/

/-- Lines 33–39: one execution of the `cpuid` instruction. -/
def cpuid (hw : Hardware) (leaf subleaf : Nat) (m : Machine) : Regs × Machine :=
  let r := hw m.queries.length (u32 leaf) (u32 subleaf)
  (r.trunc, { m with queries := m.queries ++ [(u32 leaf, u32 subleaf)] })

/-- Lines 41–51. -/
def get_vendor_id (hw : Hardware) (out : Buf) (m : Machine) : Option (Buf × Machine) := do
  let (r, m) := cpuid hw 0 0 m
  let out ← store32 out 0 r.ebx
  let out ← store32 out 4 r.edx
  let out ← store32 out 8 r.ecx
  let out ← out.store 12 [0]
  pure (out, m)

/-- The statement `*p++ = eax; *p++ = ebx; *p++ = ecx; *p++ = edx;` of lines
70, 73 and 76.  The pointer `p` is kept as a byte offset into `out`; each
`*p++ = x` stores four bytes and advances it by `sizeof(uint32_t) = 4`.
Returns the buffer and the advanced pointer. -/
def store_regs (out : Buf) (p : Nat) (r : Regs) : Option (Buf × Nat) := do
  let out ← store32 out p r.eax
  let p := p + 4
  let out ← store32 out p r.ebx
  let p := p + 4
  let out ← store32 out p r.ecx
  let p := p + 4
  let out ← store32 out p r.edx
  let p := p + 4
  pure (out, p)

/-- Lines 53–79. -/
def get_brand_string (hw : Hardware) (out : Buf) (m : Machine) : Option (Buf × Machine) := do
  let (r, m) := cpuid hw 0x80000000 0 m
  let max_ext := r.eax
  let out ← memset out 0 49
  if max_ext < 0x80000004 then
    let out ← snprintf out 49 "(brand string not supported)"
    pure (out, m)
  else
    let p := 0
    let (r, m) := cpuid hw 0x80000002 0 m
    let (out, p) ← store_regs out p r
    let (r, m) := cpuid hw 0x80000003 0 m
    let (out, p) ← store_regs out p r
    let (r, m) := cpuid hw 0x80000004 0 m
    let (out, _) ← store_regs out p r
    let out ← out.store 48 [0]
    pure (out, m)

/-- The text of one `print_feature` line (the format of lines 83–86). -/
def feature_line (name : String) (supported : Nat) (description : String) : String :=
  pad28 name ++ ": " ++ (if supported ≠ 0 then "SUPPORTED" else "not supported")
    ++ "  - " ++ description ++ "\n"

/-- Lines 81–87. -/
def print_feature (name : String) (supported : Nat) (description : String)
    (m : Machine) : Machine :=
  printf (feature_line name supported description) m

/-- The locals of the leaf-7 branch of `main` (lines 119–124). -/
structure Leaf7 where
  cet_ss : Nat
  cet_ibt : Nat
  smep : Nat
  smap : Nat
deriving DecidableEq

/-- What a run of `main` leaves behind: the exit status, the final values of
its locals (the flag locals of a branch that was not taken are `none`), and
the observable state. -/
structure Outcome where
  status : Nat
  vendor : Buf
  brand : Buf
  max_basic_leaf : Nat
  max_extended_leaf : Nat
  leaf7 : Option Leaf7
  pae : Nat
  sse2 : Nat
  nx : Option Nat
  machine : Machine
deriving DecidableEq

/-- Lines 113–134 of `main`: the leaf-7 group. -/
def main_leaf7 (hw : Hardware) (max_basic_leaf : Nat) (m : Machine) : Option Leaf7 × Machine :=
  if max_basic_leaf ≥ 7 then
    let (r, m) := cpuid hw 7 0 m
    let cet_ss := (r.ecx >>> 7) &&& 1
    let cet_ibt := (r.edx >>> 20) &&& 1
    let smep := (r.ebx >>> 7) &&& 1
    let smap := (r.ebx >>> 20) &&& 1
    let m := printf ("CPUID.(7,0): EBX=0x" ++ hex8 r.ebx ++ " ECX=0x" ++ hex8 r.ecx
      ++ " EDX=0x" ++ hex8 r.edx ++ "\n") m
    let m := print_feature "CET_SS (Shadow Stack)" cet_ss
      "CET: protects return addresses using a hardware shadow stack" m
    let m := print_feature "CET_IBT (Indirect Branch)" cet_ibt
      "CET: requires ENDBR64 at valid indirect call/jump targets" m
    let m := print_feature "SMEP" smep
      "Kernel hardening: prevents executing user pages in supervisor mode" m
    let m := print_feature "SMAP" smap
      "Kernel hardening: prevents supervisor access to user pages without opt-in" m
    let m := printf "\n" m
    (some ⟨cet_ss, cet_ibt, smep, smap⟩, m)
  else
    (none, printf "CPUID leaf 7 is not supported on this CPU.\n\n" m)

/-- Lines 136–145 of `main`: the leaf-1 group; returns `(pae, sse2)`. -/
def main_leaf1 (hw : Hardware) (m : Machine) : (Nat × Nat) × Machine :=
  let (r, m) := cpuid hw 1 0 m
  let pae := (r.edx >>> 6) &&& 1
  let sse2 := (r.edx >>> 26) &&& 1
  let m := printf ("CPUID.(1,0): ECX=0x" ++ hex8 r.ecx ++ " EDX=0x" ++ hex8 r.edx ++ "\n") m
  let m := print_feature "PAE" pae
    "Physical Address Extension (historically related to NX in some setups)" m
  let m := print_feature "SSE2" sse2
    "Vector instruction set (common baseline on x86-64)" m
  let m := printf "\n" m
  ((pae, sse2), m)

/-- Lines 147–158 of `main`: the leaf-0x80000001 group. -/
def main_ext1 (hw : Hardware) (max_extended_leaf : Nat) (m : Machine) : Option Nat × Machine :=
  if max_extended_leaf ≥ 0x80000001 then
    let (r, m) := cpuid hw 0x80000001 0 m
    let nx := (r.edx >>> 20) &&& 1
    let m := printf ("CPUID.(0x80000001,0): EDX=0x" ++ hex8 r.edx ++ "\n") m
    let m := print_feature "NX/XD" nx
      "No-eXecute: allows pages to be marked non-executable (basis for DEP/NX)" m
    let m := printf "\n" m
    (some nx, m)
  else
    (none, printf "CPUID extended leaf 0x80000001 is not supported on this CPU.\n\n" m)

/-- Lines 89–161.  `stack` supplies the indeterminate initial content of the
two local arrays. -/
def main (hw : Hardware) (stack : Nat → Nat) : Option Outcome := do
  let m : Machine := ⟨[], []⟩
  let (vendor, m) ← get_vendor_id hw (Buf.uninit stack 13) m
  let (r, m) := cpuid hw 0 0 m
  let max_basic_leaf := r.eax
  let (r, m) := cpuid hw 0x80000000 0 m
  let max_extended_leaf := r.eax
  let (brand, m) ← get_brand_string hw (Buf.uninit (fun i => stack (13 + i)) 49) m
  let vendor_text ← cstr vendor.bytes
  let m := printf ("Vendor ID        : " ++ vendor_text ++ "\n") m
  let brand_text ← cstr brand.bytes
  let m := printf ("Brand String     : " ++ brand_text ++ "\n") m
  let m := printf ("Max Basic Leaf   : 0x" ++ hex8 max_basic_leaf ++ "\n") m
  let m := printf ("Max Extended Leaf: 0x" ++ hex8 max_extended_leaf ++ "\n\n") m
  let (leaf7, m) := main_leaf7 hw max_basic_leaf m
  let ((pae, sse2), m) := main_leaf1 hw m
  let (nx, m) := main_ext1 hw max_extended_leaf m
  pure ⟨0, vendor, brand, max_basic_leaf, max_extended_leaf, leaf7, pae, sse2, nx, m⟩

/-! ## Reference description of a run

The definitions below do not come from the code: they say, in closed form, what
the claims expect of a run on a processor that answers with the function `q`.
The theorems compare `main` and its helpers with them. -/

/-- The `uint32_t` registers the query function `q` returns for a selector pair. -/
def query (q : Nat → Nat → Regs) (leaf subleaf : Nat) : Regs := (q leaf subleaf).trunc

/-- Bit `i` of `x`, as 0 or 1. -/
def bit (x i : Nat) : Nat := x / 2 ^ i % 2

/-- The sixteen bytes of the registers A, B, C, D, in that order. -/
def regs_bytes (r : Regs) : List Nat :=
  le_bytes r.eax ++ le_bytes r.ebx ++ le_bytes r.ecx ++ le_bytes r.edx

/-- The 13 bytes of the vendor id: B, D, C and a NUL. -/
def vendor_bytes (r : Regs) : List Nat :=
  le_bytes r.ebx ++ le_bytes r.edx ++ le_bytes r.ecx ++ [0]

/-- The 49 bytes of a decoded brand string. -/
def brand_bytes (r2 r3 r4 : Regs) : List Nat :=
  regs_bytes r2 ++ regs_bytes r3 ++ regs_bytes r4 ++ [0]

/-- The 49 bytes left by the unsupported path of `get_brand_string`. -/
def placeholder_bytes : List Nat :=
  lit "(brand string not supported)" ++ List.replicate 21 0

/-- The brand buffer content expected for `q`. -/
def expected_brand (q : Nat → Nat → Regs) : List Nat :=
  if (query q 0x80000000 0).eax < 0x80000004 then placeholder_bytes
  else brand_bytes (query q 0x80000002 0) (query q 0x80000003 0) (query q 0x80000004 0)

/-- The four header lines of the report. -/
def header_lines (q : Nat → Nat → Regs) : List String :=
  ["Vendor ID        : " ++ ctext (vendor_bytes (query q 0 0)) ++ "\n",
   "Brand String     : " ++ ctext (expected_brand q) ++ "\n",
   "Max Basic Leaf   : 0x" ++ hex8 (query q 0 0).eax ++ "\n",
   "Max Extended Leaf: 0x" ++ hex8 (query q 0x80000000 0).eax ++ "\n\n"]

/-- The raw-register line of the leaf-7 group. -/
def leaf7_raw (r : Regs) : String :=
  "CPUID.(7,0): EBX=0x" ++ hex8 r.ebx ++ " ECX=0x" ++ hex8 r.ecx ++ " EDX=0x" ++ hex8 r.edx ++ "\n"

/-- The four feature lines of the leaf-7 group, for given flag values. -/
def leaf7_features (f : Leaf7) : List String :=
  [feature_line "CET_SS (Shadow Stack)" f.cet_ss
     "CET: protects return addresses using a hardware shadow stack",
   feature_line "CET_IBT (Indirect Branch)" f.cet_ibt
     "CET: requires ENDBR64 at valid indirect call/jump targets",
   feature_line "SMEP" f.smep
     "Kernel hardening: prevents executing user pages in supervisor mode",
   feature_line "SMAP" f.smap
     "Kernel hardening: prevents supervisor access to user pages without opt-in"]

/-- The flags of leaf 7 read off the bit positions the claims name. -/
def leaf7_flags (r : Regs) : Leaf7 := ⟨bit r.ecx 7, bit r.edx 20, bit r.ebx 7, bit r.ebx 20⟩

/-- The notice printed when leaf 7 is not supported. -/
def leaf7_notice : String := "CPUID leaf 7 is not supported on this CPU.\n\n"

/-- The leaf-7 group of the report. -/
def leaf7_group (q : Nat → Nat → Regs) : List String :=
  if 7 ≤ (query q 0 0).eax then
    [leaf7_raw (query q 7 0)] ++ leaf7_features (leaf7_flags (query q 7 0)) ++ ["\n"]
  else [leaf7_notice]

/-- The raw-register line of the leaf-1 group. -/
def leaf1_raw (r : Regs) : String :=
  "CPUID.(1,0): ECX=0x" ++ hex8 r.ecx ++ " EDX=0x" ++ hex8 r.edx ++ "\n"

/-- The two feature lines of the leaf-1 group, for given flag values. -/
def leaf1_features (pae sse2 : Nat) : List String :=
  [feature_line "PAE" pae
     "Physical Address Extension (historically related to NX in some setups)",
   feature_line "SSE2" sse2 "Vector instruction set (common baseline on x86-64)"]

/-- The leaf-1 group of the report. -/
def leaf1_group (q : Nat → Nat → Regs) : List String :=
  [leaf1_raw (query q 1 0)]
    ++ leaf1_features (bit (query q 1 0).edx 6) (bit (query q 1 0).edx 26) ++ ["\n"]

/-- The raw-register line of the leaf-0x80000001 group. -/
def ext1_raw (r : Regs) : String :=
  "CPUID.(0x80000001,0): EDX=0x" ++ hex8 r.edx ++ "\n"

/-- The NX/XD feature line, for a given flag value. -/
def nx_line (nx : Nat) : String :=
  feature_line "NX/XD" nx
    "No-eXecute: allows pages to be marked non-executable (basis for DEP/NX)"

/-- The notice printed when leaf 0x80000001 is not supported. -/
def ext1_notice : String :=
  "CPUID extended leaf 0x80000001 is not supported on this CPU.\n\n"

/-- The leaf-0x80000001 group of the report. -/
def ext1_group (q : Nat → Nat → Regs) : List String :=
  if 0x80000001 ≤ (query q 0x80000000 0).eax then
    [ext1_raw (query q 0x80000001 0), nx_line (bit (query q 0x80000001 0).edx 20), "\n"]
  else [ext1_notice]

/-- The selector pairs a run is expected to query, in order. -/
def expected_queries (q : Nat → Nat → Regs) : List (Nat × Nat) :=
  [(0, 0), (0, 0), (0x80000000, 0), (0x80000000, 0)]
    ++ (if (query q 0x80000000 0).eax < 0x80000004 then []
        else [(0x80000002, 0), (0x80000003, 0), (0x80000004, 0)])
    ++ (if 7 ≤ (query q 0 0).eax then [(7, 0)] else [])
    ++ [(1, 0)]
    ++ (if 0x80000001 ≤ (query q 0x80000000 0).eax then [(0x80000001, 0)] else [])

/-- The store log expected on the brand buffer. -/
def expected_brand_writes (q : Nat → Nat → Regs) : List (Nat × Nat) :=
  if (query q 0x80000000 0).eax < 0x80000004 then [(0, 49), (0, 29)]
  else [(0, 49), (0, 4), (4, 4), (8, 4), (12, 4), (16, 4), (20, 4), (24, 4),
        (28, 4), (32, 4), (36, 4), (40, 4), (44, 4), (48, 1)]

/-- The outcome expected of `main` on a processor answering with `q`. -/
def expected (q : Nat → Nat → Regs) : Outcome where
  status := 0
  vendor := ⟨vendor_bytes (query q 0 0), [(0, 4), (4, 4), (8, 4), (12, 1)]⟩
  brand := ⟨expected_brand q, expected_brand_writes q⟩
  max_basic_leaf := (query q 0 0).eax
  max_extended_leaf := (query q 0x80000000 0).eax
  leaf7 := if 7 ≤ (query q 0 0).eax then some (leaf7_flags (query q 7 0)) else none
  pae := bit (query q 1 0).edx 6
  sse2 := bit (query q 1 0).edx 26
  nx := if 0x80000001 ≤ (query q 0x80000000 0).eax then some (bit (query q 0x80000001 0).edx 20)
        else none
  machine := ⟨expected_queries q, header_lines q ++ leaf7_group q ++ leaf1_group q ++ ext1_group q⟩

/-! ## Concrete processors used as test inputs -/

/-- A processor description used to exercise the theorems: an Intel-like part
with every leaf supported. -/
def sample_q : Nat → Nat → Regs := fun leaf _ =>
  if leaf = 0 then ⟨0x16, 0x756e6547, 0x6c65746e, 0x49656e69⟩
  else if leaf = 0x80000000 then ⟨0x80000008, 0, 0, 0⟩
  else if leaf = 7 then ⟨0, 0x80, 0, 0⟩
  else if leaf = 1 then ⟨0, 0, 0, 0x4000040⟩
  else if leaf = 0x80000001 then ⟨0, 0, 0, 0x100000⟩
  else ⟨0x41414140 + leaf % 16, 0x42424240 + leaf % 16, 0x43434340 + leaf % 16,
        0x44444440 + leaf % 16⟩

/-- A processor that supports the brand-string leaves and whose brand
registers spell the text of the placeholder followed by NULs. -/
def spoof_q : Nat → Nat → Regs := fun leaf _ =>
  if leaf = 0x80000000 then ⟨0x80000004, 0, 0, 0⟩
  else if leaf = 0x80000002 then ⟨0x61726228, 0x7320646e, 0x6e697274, 0x6f6e2067⟩
  else if leaf = 0x80000003 then ⟨0x75732074, 0x726f7070, 0x29646574, 0⟩
  else ⟨0, 0, 0, 0⟩

/-- The first eight characters of a text (fewer when it is shorter). -/
def head8 (s : String) : List Char := s.data.take 8

/-- A processor without leaf 7 and without extended leaves. -/
def old_q : Nat → Nat → Regs := fun leaf _ =>
  if leaf = 0 then ⟨1, 0x756e6547, 0x6c65746e, 0x49656e69⟩
  else if leaf = 1 then ⟨0x480, 0, 0, 0x40⟩
  else ⟨0, 0x80, 0x80, 0x100000⟩

/-- A processor that reports max_basic_leaf 0 and no extended leaves, and
whose answer at selector 1 has bits 6 and 26 of D set. -/
def leaf0_only_q : Nat → Nat → Regs := fun leaf _ =>
  if leaf = 1 then ⟨0, 0, 0, 0x4000040⟩ else ⟨0, 0, 0, 0⟩

/-- A processor with leaf 7 whose answer there has A = 0x12345678. -/
def leaf7_eax_q : Nat → Nat → Regs := fun leaf _ =>
  if leaf = 0 then ⟨7, 0, 0, 0⟩
  else if leaf = 7 then ⟨0x12345678, 0x80, 0, 0x100000⟩
  else ⟨0, 0, 0, 0⟩

/-- The same processor with A = 0x0fedcba9 at leaf 7. -/
def leaf7_eax_q' : Nat → Nat → Regs := fun leaf _ =>
  if leaf = 0 then ⟨7, 0, 0, 0⟩
  else if leaf = 7 then ⟨0x0fedcba9, 0x80, 0, 0x100000⟩
  else ⟨0, 0, 0, 0⟩

/-- The word a feature line shows for a flag that is set or clear. -/
def status_word (set : Bool) : String := if set then "SUPPORTED" else "not supported"

/-- The line the report is expected to show for a flag: its name in a column of
28, the status word, and its description. -/
def status_line (name : String) (set : Bool) (description : String) : String :=
  pad28 name ++ ": " ++ status_word set ++ "  - " ++ description ++ "\n"

/-- A processor that is not stable: only the `cpuid` execution number 2 (the
read of max_extended_leaf by `main`) reports extended leaves up to
0x80000008; every other execution returns zeros. -/
def flaky_hw : Hardware := fun n leaf _ =>
  if n = 2 ∧ leaf = 0x80000000 then ⟨0x80000008, 0, 0, 0⟩ else ⟨0, 0, 0, 0⟩

/-! ## Lemmas on the buffer operations -/
theorem le_bytes_length (x : Nat) : (le_bytes x).length = 4 := rfl

/-- The four bytes of `le_bytes` are the base-256 digits of a `uint32_t`, least
significant first. -/
theorem le_bytes_value (x : Nat) (h : x < 2 ^ 32) :
    Nat.ofDigits 256 (le_bytes x) = x ∧ ∀ b ∈ le_bytes x, b < 256 := by
  constructor
  · simp only [le_bytes, Nat.ofDigits_cons, Nat.ofDigits_nil]
    omega
  · intro b hb
    simp only [le_bytes, List.mem_cons, List.mem_singleton, List.not_mem_nil, or_false] at hb
    omega

theorem shr_and_one (x i : Nat) : (x >>> i) &&& 1 = bit x i := by
  rw [Nat.and_one_is_mod, Nat.shiftRight_eq_div_pow, bit]

theorem shr_mod_two (x i : Nat) : x >>> i % 2 = bit x i := by
  rw [Nat.shiftRight_eq_div_pow, bit]

theorem bit_le_one (x i : Nat) : bit x i = 0 ∨ bit x i = 1 := by
  unfold bit; omega

theorem uninit_length (stack : Nat → Nat) (n : Nat) : (Buf.uninit stack n).bytes.length = n := by
  simp [Buf.uninit]

theorem uninit_writes (stack : Nat → Nat) (n : Nat) : (Buf.uninit stack n).writes = [] := rfl

theorem cpuid_stable (q : Nat → Nat → Regs) (leaf subleaf : Nat) (m : Machine) :
    cpuid (stable q) leaf subleaf m
      = (query q (u32 leaf) (u32 subleaf),
         ⟨m.queries ++ [(u32 leaf, u32 subleaf)], m.stdout⟩) := rfl

theorem get_vendor_id_eq (hw : Hardware) (out : Buf) (m : Machine)
    (h : out.bytes.length = 13) :
    get_vendor_id hw out m =
      some (⟨vendor_bytes (cpuid hw 0 0 m).1,
             out.writes ++ [(0, 4), (4, 4), (8, 4), (12, 1)]⟩, (cpuid hw 0 0 m).2) := by
  simp only [get_vendor_id, store32, Buf.store, le_bytes_length, h, bind, Option.bind, pure]
  simp [le_bytes, vendor_bytes, h]

theorem memset_eq (out : Buf) (h : out.bytes.length = 49) :
    memset out 0 49 = some ⟨[] ++ List.replicate 49 0, out.writes ++ [(0, 49)]⟩ := by
  simp [memset, Buf.store, h]

theorem store_zeros (pre src : List Nat) (k n off : Nat) (w : List (Nat × Nat))
    (hn : src.length = n) (hoff : pre.length = off) :
    Buf.store ⟨pre ++ List.replicate (k + n) 0, w⟩ off src
      = some ⟨(pre ++ src) ++ List.replicate k 0, w ++ [(off, n)]⟩ := by
  subst hn hoff
  have h1 : List.replicate (k + src.length) 0
      = List.replicate src.length 0 ++ List.replicate k 0 := by
    rw [Nat.add_comm, List.replicate_add]
  simp [Buf.store, h1]

theorem store32_zeros (pre : List Nat) (k off x : Nat) (w : List (Nat × Nat))
    (hoff : pre.length = off) :
    store32 ⟨pre ++ List.replicate (k + 4) 0, w⟩ off x
      = some ⟨(pre ++ le_bytes x) ++ List.replicate k 0, w ++ [(off, 4)]⟩ :=
  store_zeros pre (le_bytes x) k 4 off w rfl hoff

theorem regs_bytes_length (r : Regs) : (regs_bytes r).length = 16 := rfl

theorem store_regs_zeros (pre : List Nat) (k p : Nat) (r : Regs) (w : List (Nat × Nat))
    (hp : pre.length = p) :
    store_regs ⟨pre ++ List.replicate (k + 16) 0, w⟩ p r
      = some (⟨(pre ++ regs_bytes r) ++ List.replicate k 0,
              w ++ [(p, 4), (p + 4, 4), (p + 8, 4), (p + 12, 4)]⟩, p + 16) := by
  subst hp
  simp only [store_regs, bind, Option.bind, pure]
  rw [show k + 16 = (k + 12) + 4 from rfl, store32_zeros _ _ _ _ _ rfl]
  simp only []
  rw [show k + 12 = (k + 8) + 4 from rfl, store32_zeros _ _ _ _ _ (by simp [le_bytes_length])]
  simp only []
  rw [show k + 8 = (k + 4) + 4 from rfl, store32_zeros _ _ _ _ _ (by simp [le_bytes_length])]
  simp only []
  rw [store32_zeros _ _ _ _ _ (by simp [le_bytes_length])]
  simp [Nat.add_assoc, regs_bytes]

theorem get_brand_string_unsupported (hw : Hardware) (out : Buf) (m : Machine)
    (h : out.bytes.length = 49) (hlt : (cpuid hw 0x80000000 0 m).1.eax < 0x80000004) :
    get_brand_string hw out m =
      some (⟨placeholder_bytes, out.writes ++ [(0, 49), (0, 29)]⟩,
            (cpuid hw 0x80000000 0 m).2) := by
  simp only [get_brand_string, memset_eq out h, bind, Option.bind, pure, hlt, if_true]
  simp [snprintf, Buf.store, lit, placeholder_bytes, List.replicate]

theorem get_brand_string_supported (hw : Hardware) (out : Buf) (m : Machine)
    (h : out.bytes.length = 49) (hge : 0x80000004 ≤ (cpuid hw 0x80000000 0 m).1.eax) :
    get_brand_string hw out m =
      some (⟨brand_bytes (cpuid hw 0x80000002 0 (cpuid hw 0x80000000 0 m).2).1
               (cpuid hw 0x80000003 0 (cpuid hw 0x80000002 0 (cpuid hw 0x80000000 0 m).2).2).1
               (cpuid hw 0x80000004 0 (cpuid hw 0x80000003 0
                 (cpuid hw 0x80000002 0 (cpuid hw 0x80000000 0 m).2).2).2).1,
             out.writes ++ [(0, 49), (0, 4), (4, 4), (8, 4), (12, 4), (16, 4), (20, 4), (24, 4),
               (28, 4), (32, 4), (36, 4), (40, 4), (44, 4), (48, 1)]⟩,
            (cpuid hw 0x80000004 0 (cpuid hw 0x80000003 0
              (cpuid hw 0x80000002 0 (cpuid hw 0x80000000 0 m).2).2).2).2) := by
  have hnlt : ¬ (cpuid hw 0x80000000 0 m).1.eax < 0x80000004 := by omega
  simp only [get_brand_string, memset_eq out h, bind, Option.bind, pure, hnlt, if_false]
  rw [show (49 : Nat) = 33 + 16 from rfl, store_regs_zeros [] 33 0 _ _ rfl]
  simp only []
  rw [show (33 : Nat) = 17 + 16 from rfl,
    store_regs_zeros _ 17 (0 + 16) _ _ (by simp [regs_bytes_length])]
  simp only []
  rw [show (17 : Nat) = 1 + 16 from rfl,
    store_regs_zeros _ 1 (0 + 16 + 16) _ _ (by simp [regs_bytes_length])]
  simp only []
  rw [store_zeros _ [0] 0 1 48 _ rfl (by simp [regs_bytes_length])]
  simp [Nat.add_assoc, brand_bytes]

theorem vendor_bytes_nul (r : Regs) : 0 ∈ vendor_bytes r := by simp [vendor_bytes]

theorem expected_brand_nul (q : Nat → Nat → Regs) : 0 ∈ expected_brand q := by
  unfold expected_brand
  split
  · simp [placeholder_bytes]
  · simp [brand_bytes]

theorem get_brand_string_stable (q : Nat → Nat → Regs) (out : Buf) (m : Machine)
    (h : out.bytes.length = 49) :
    get_brand_string (stable q) out m =
      some (⟨expected_brand q, out.writes ++ expected_brand_writes q⟩,
            ⟨m.queries ++ [(0x80000000, 0)]
               ++ (if (query q 0x80000000 0).eax < 0x80000004 then []
                   else [(0x80000002, 0), (0x80000003, 0), (0x80000004, 0)]), m.stdout⟩) := by
  by_cases hlt : (query q 0x80000000 0).eax < 0x80000004
  · rw [get_brand_string_unsupported _ _ _ h (by simpa [cpuid_stable, u32] using hlt)]
    simp [cpuid_stable, u32, expected_brand, expected_brand_writes, hlt]
  · rw [get_brand_string_supported _ _ _ h (by simp [cpuid_stable, u32]; omega)]
    simp [cpuid_stable, u32, expected_brand, expected_brand_writes, hlt]

theorem main_stable (q : Nat → Nat → Regs) (stack : Nat → Nat) :
    main (stable q) stack = some (expected q) := by
  simp only [main, bind, Option.bind, pure, get_vendor_id_eq _ _ _ (uninit_length stack 13),
    get_brand_string_stable _ _ _ (uninit_length _ 49), cstr, vendor_bytes_nul,
    expected_brand_nul, if_true, cpuid_stable, uninit_writes]
  by_cases h7 : 7 ≤ (query q 0 0).eax <;>
  by_cases hE : 0x80000001 ≤ (query q 0x80000000 0).eax <;>
  simp [main_leaf7, main_leaf1, main_ext1, h7, hE, cpuid_stable, u32, printf, print_feature,
    shr_and_one, shr_mod_two, expected, expected_queries, header_lines, leaf7_group, leaf1_group,
    ext1_group, leaf7_raw, leaf7_features, leaf7_flags, leaf7_notice, leaf1_raw,
    leaf1_features, ext1_raw, nx_line, ext1_notice]

theorem bit_eq_one_iff (x i : Nat) : bit x i = 1 ↔ x.testBit i = true := by
  simp [bit, Nat.testBit, Nat.shiftRight_eq_div_pow, Nat.and_one_is_mod]

/-! ## The claims -/

/-- C1: whenever max_basic_leaf (A of query(0,0)) is at least 7, `main` runs to
completion and its locals cet_ss, cet_ibt, smep, smap are `(C >> 7) & 1`,
`(D >> 20) & 1`, `(B >> 7) & 1`, `(B >> 20) & 1` of query(7,0): bit 7 of C, bit 20
of D, bit 7 of B and bit 20 of B, each 0 or 1; B = 0x80 with C = D = 0 gives
smep = 1 and the other three 0, and C = 0x80 gives cet_ss = 1. -/
theorem main_extended_features (q : Nat → Nat → Regs) (stack : Nat → Nat)
    (h : 7 ≤ (query q 0 0).eax) :
    ∃ o f, main (stable q) stack = some o ∧ o.leaf7 = some f ∧
      f.cet_ss = ((query q 7 0).ecx >>> 7) &&& 1 ∧
      f.cet_ibt = ((query q 7 0).edx >>> 20) &&& 1 ∧
      f.smep = ((query q 7 0).ebx >>> 7) &&& 1 ∧
      f.smap = ((query q 7 0).ebx >>> 20) &&& 1 ∧
      (f.cet_ss = 1 ↔ (query q 7 0).ecx.testBit 7 = true) ∧
      (f.cet_ibt = 1 ↔ (query q 7 0).edx.testBit 20 = true) ∧
      (f.smep = 1 ↔ (query q 7 0).ebx.testBit 7 = true) ∧
      (f.smap = 1 ↔ (query q 7 0).ebx.testBit 20 = true) ∧
      (f.cet_ss = 0 ∨ f.cet_ss = 1) ∧ (f.cet_ibt = 0 ∨ f.cet_ibt = 1) ∧
      (f.smep = 0 ∨ f.smep = 1) ∧ (f.smap = 0 ∨ f.smap = 1) ∧
      ((query q 7 0).ebx = 0x00000080 → (query q 7 0).ecx = 0 → (query q 7 0).edx = 0 →
        f = ⟨0, 0, 1, 0⟩) ∧
      ((query q 7 0).ecx = 0x00000080 → f.cet_ss = 1) := by
  refine ⟨expected q, leaf7_flags (query q 7 0), main_stable q stack, by simp [expected, h],
    (shr_and_one _ _).symm, (shr_and_one _ _).symm, (shr_and_one _ _).symm,
    (shr_and_one _ _).symm, bit_eq_one_iff _ _, bit_eq_one_iff _ _, bit_eq_one_iff _ _,
    bit_eq_one_iff _ _, bit_le_one _ _, bit_le_one _ _, bit_le_one _ _, bit_le_one _ _, ?_, ?_⟩
  · intro hb hc hd
    simp [leaf7_flags, hb, hc, hd, bit]
  · intro hc
    simp [leaf7_flags, hc, bit]

theorem main_extended_features_witness :
    7 ≤ (query sample_q 0 0).eax ∧
    ∃ o f, main (stable sample_q) (fun _ => 0) = some o ∧ o.leaf7 = some f ∧
      f.cet_ss = ((query sample_q 7 0).ecx >>> 7) &&& 1 ∧
      f.cet_ibt = ((query sample_q 7 0).edx >>> 20) &&& 1 ∧
      f.smep = ((query sample_q 7 0).ebx >>> 7) &&& 1 ∧
      f.smap = ((query sample_q 7 0).ebx >>> 20) &&& 1 ∧
      (f.cet_ss = 1 ↔ (query sample_q 7 0).ecx.testBit 7 = true) ∧
      (f.cet_ibt = 1 ↔ (query sample_q 7 0).edx.testBit 20 = true) ∧
      (f.smep = 1 ↔ (query sample_q 7 0).ebx.testBit 7 = true) ∧
      (f.smap = 1 ↔ (query sample_q 7 0).ebx.testBit 20 = true) ∧
      (f.cet_ss = 0 ∨ f.cet_ss = 1) ∧ (f.cet_ibt = 0 ∨ f.cet_ibt = 1) ∧
      (f.smep = 0 ∨ f.smep = 1) ∧ (f.smap = 0 ∨ f.smap = 1) ∧
      ((query sample_q 7 0).ebx = 0x00000080 → (query sample_q 7 0).ecx = 0 →
        (query sample_q 7 0).edx = 0 → f = ⟨0, 0, 1, 0⟩) ∧
      ((query sample_q 7 0).ecx = 0x00000080 → f.cet_ss = 1) :=
  ⟨by decide, main_extended_features sample_q (fun _ => 0) (by decide)⟩

/-- C2: on a 13-byte destination `get_vendor_id` succeeds after exactly one
query(0,0) and leaves in out[0..3] the little-endian bytes of B, in out[4..7]
those of D, in out[8..11] those of C and a NUL in out[12]; the result is the
same for any processor returning the same B, C, D (A is not used), and
B=0x756e6547, D=0x49656e69, C=0x6c65746e spells "GenuineIntel". -/
theorem get_vendor_id_bytes (q : Nat → Nat → Regs) (out : Buf) (m : Machine)
    (h : out.bytes.length = 13) :
    ∃ b m', get_vendor_id (stable q) out m = some (b, m') ∧
      m'.queries = m.queries ++ [(0, 0)] ∧ m'.stdout = m.stdout ∧
      b.bytes.length = 13 ∧
      b.bytes.take 4 = le_bytes (query q 0 0).ebx ∧
      (b.bytes.drop 4).take 4 = le_bytes (query q 0 0).edx ∧
      (b.bytes.drop 8).take 4 = le_bytes (query q 0 0).ecx ∧
      b.bytes.drop 12 = [0] ∧
      (∀ q' : Nat → Nat → Regs, (query q' 0 0).ebx = (query q 0 0).ebx →
        (query q' 0 0).ecx = (query q 0 0).ecx → (query q' 0 0).edx = (query q 0 0).edx →
        get_vendor_id (stable q') out m = some (b, m')) ∧
      ((query q 0 0).ebx = 0x756e6547 → (query q 0 0).edx = 0x49656e69 →
        (query q 0 0).ecx = 0x6c65746e → ctext b.bytes = "GenuineIntel") := by
  refine ⟨_, _, get_vendor_id_eq _ _ _ h, ?_, rfl, ?_, ?_, ?_, ?_, ?_, ?_, ?_⟩
  · simp [cpuid_stable, u32]
  · simp [cpuid_stable, vendor_bytes, le_bytes]
  · simp [cpuid_stable, vendor_bytes, le_bytes, u32]
  · simp [cpuid_stable, vendor_bytes, le_bytes, u32]
  · simp [cpuid_stable, vendor_bytes, le_bytes, u32]
  · simp [cpuid_stable, vendor_bytes, le_bytes, u32]
  · intro q' hb hc hd
    rw [get_vendor_id_eq _ _ _ h]
    simp [cpuid_stable, vendor_bytes, u32, hb, hc, hd]
  · intro hb hd hc
    simp only [cpuid_stable, vendor_bytes, u32]
    simp only [Nat.reducePow, Nat.reduceMod, hb, hd, hc]
    decide

theorem get_vendor_id_bytes_witness :
    (Buf.uninit (fun i => i + 65) 13).bytes.length = 13 ∧
    ∃ b m', get_vendor_id (stable sample_q) (Buf.uninit (fun i => i + 65) 13) ⟨[], []⟩
        = some (b, m') ∧
      m'.queries = [] ++ [(0, 0)] ∧ m'.stdout = [] ∧
      b.bytes.length = 13 ∧
      b.bytes.take 4 = le_bytes (query sample_q 0 0).ebx ∧
      (b.bytes.drop 4).take 4 = le_bytes (query sample_q 0 0).edx ∧
      (b.bytes.drop 8).take 4 = le_bytes (query sample_q 0 0).ecx ∧
      b.bytes.drop 12 = [0] ∧
      (∀ q' : Nat → Nat → Regs, (query q' 0 0).ebx = (query sample_q 0 0).ebx →
        (query q' 0 0).ecx = (query sample_q 0 0).ecx →
        (query q' 0 0).edx = (query sample_q 0 0).edx →
        get_vendor_id (stable q') (Buf.uninit (fun i => i + 65) 13) ⟨[], []⟩ = some (b, m')) ∧
      ((query sample_q 0 0).ebx = 0x756e6547 → (query sample_q 0 0).edx = 0x49656e69 →
        (query sample_q 0 0).ecx = 0x6c65746e → ctext b.bytes = "GenuineIntel") :=
  ⟨by decide, get_vendor_id_bytes sample_q (Buf.uninit (fun i => i + 65) 13) ⟨[], []⟩ (by decide)⟩

/-- C3: when the A field of query(0x80000000,0) is at least 0x80000004,
`get_brand_string` succeeds on a 49-byte destination; field k of the twelve
fields A,B,C,D of query(0x80000002,0), query(0x80000003,0), query(0x80000004,0)
(in that order) occupies bytes 4k..4k+3 in little-endian order, and out[48] is
NUL. -/
theorem get_brand_string_bytes (q : Nat → Nat → Regs) (out : Buf) (m : Machine)
    (h : out.bytes.length = 49) (hge : 0x80000004 ≤ (query q 0x80000000 0).eax) :
    ∃ b m', get_brand_string (stable q) out m = some (b, m') ∧
      b.bytes.length = 49 ∧
      (∀ k, k < 12 →
        (b.bytes.drop (4 * k)).take 4 =
          le_bytes (([(query q 0x80000002 0).eax, (query q 0x80000002 0).ebx,
                      (query q 0x80000002 0).ecx, (query q 0x80000002 0).edx,
                      (query q 0x80000003 0).eax, (query q 0x80000003 0).ebx,
                      (query q 0x80000003 0).ecx, (query q 0x80000003 0).edx,
                      (query q 0x80000004 0).eax, (query q 0x80000004 0).ebx,
                      (query q 0x80000004 0).ecx, (query q 0x80000004 0).edx].get? k).getD 0)) ∧
      b.bytes.drop 48 = [0] ∧
      m'.queries = m.queries
        ++ [(0x80000000, 0), (0x80000002, 0), (0x80000003, 0), (0x80000004, 0)] := by
  have hnlt : ¬ (query q 0x80000000 0).eax < 0x80000004 := by omega
  refine ⟨_, _, get_brand_string_stable q out m h, ?_, ?_, ?_, ?_⟩
  · simp [expected_brand, hnlt, brand_bytes, regs_bytes, le_bytes]
  · intro k hk
    simp only [expected_brand, hnlt, if_false]
    interval_cases k <;> simp [brand_bytes, regs_bytes, le_bytes]
  · simp [expected_brand, hnlt, brand_bytes, regs_bytes, le_bytes]
  · simp [hnlt]

theorem get_brand_string_bytes_witness :
    (Buf.uninit (fun i => i + 65) 49).bytes.length = 49 ∧
    0x80000004 ≤ (query sample_q 0x80000000 0).eax ∧
    ∃ b m', get_brand_string (stable sample_q) (Buf.uninit (fun i => i + 65) 49) ⟨[], []⟩
        = some (b, m') ∧
      b.bytes.length = 49 ∧
      (∀ k, k < 12 →
        (b.bytes.drop (4 * k)).take 4 =
          le_bytes (([(query sample_q 0x80000002 0).eax, (query sample_q 0x80000002 0).ebx,
                      (query sample_q 0x80000002 0).ecx, (query sample_q 0x80000002 0).edx,
                      (query sample_q 0x80000003 0).eax, (query sample_q 0x80000003 0).ebx,
                      (query sample_q 0x80000003 0).ecx, (query sample_q 0x80000003 0).edx,
                      (query sample_q 0x80000004 0).eax, (query sample_q 0x80000004 0).ebx,
                      (query sample_q 0x80000004 0).ecx,
                      (query sample_q 0x80000004 0).edx].get? k).getD 0)) ∧
      b.bytes.drop 48 = [0] ∧
      m'.queries = []
        ++ [(0x80000000, 0), (0x80000002, 0), (0x80000003, 0), (0x80000004, 0)] :=
  ⟨by decide, by decide,
   get_brand_string_bytes sample_q (Buf.uninit (fun i => i + 65) 49) ⟨[], []⟩
     (by decide) (by decide)⟩

/-- C4, as stated, fails: on a processor whose A field of query(0x80000000,0) is
0x80000004 (not below it) and whose brand registers spell the placeholder text,
`get_brand_string` queries the three brand leaves and still returns exactly the
49 bytes of the fixed placeholder. -/
theorem get_brand_string_placeholder_not_only_if :
    ¬ (query spoof_q 0x80000000 0).eax < 0x80000004 ∧
    (get_brand_string (stable spoof_q) (Buf.uninit (fun _ => 0) 49) ⟨[], []⟩).map
        (fun p => (p.1.bytes, p.2.queries))
      = some (placeholder_bytes,
          [(0x80000000, 0), (0x80000002, 0), (0x80000003, 0), (0x80000004, 0)]) := by
  decide

/-- C4 (amended): on a 49-byte destination `get_brand_string` always succeeds.
If the A field of query(0x80000000,0) is below 0x80000004 it returns the fixed
placeholder, issues that one query only (none at 0x80000002..0x80000004), and
the result is the same for every such query function.  If it is not below, the
three brand leaves are queried and the result is their 48 bytes and a NUL, which
is the placeholder only when those registers spell it. -/
theorem get_brand_string_placeholder (q : Nat → Nat → Regs) (out : Buf) (m : Machine)
    (h : out.bytes.length = 49) :
    ∃ b m', get_brand_string (stable q) out m = some (b, m') ∧
      ((query q 0x80000000 0).eax < 0x80000004 →
        b.bytes = placeholder_bytes ∧
        m'.queries = m.queries ++ [(0x80000000, 0)] ∧
        (∀ s, (s, 0) ∈ m'.queries → (s, 0) ∉ m.queries →
          s ≠ 0x80000002 ∧ s ≠ 0x80000003 ∧ s ≠ 0x80000004) ∧
        (∀ q' : Nat → Nat → Regs, (query q' 0x80000000 0).eax < 0x80000004 →
          get_brand_string (stable q') out m = some (b, m'))) ∧
      (¬ (query q 0x80000000 0).eax < 0x80000004 →
        b.bytes = brand_bytes (query q 0x80000002 0) (query q 0x80000003 0)
          (query q 0x80000004 0) ∧
        m'.queries = m.queries
          ++ [(0x80000000, 0), (0x80000002, 0), (0x80000003, 0), (0x80000004, 0)]) ∧
      (b.bytes = placeholder_bytes ↔
        ((query q 0x80000000 0).eax < 0x80000004 ∨
          brand_bytes (query q 0x80000002 0) (query q 0x80000003 0) (query q 0x80000004 0)
            = placeholder_bytes)) := by
  refine ⟨_, _, get_brand_string_stable q out m h, ?_, ?_, ?_⟩
  · intro hlt
    refine ⟨by simp [expected_brand, hlt], by simp [hlt], ?_, ?_⟩
    · intro s hs hs'
      simp only [hlt, if_true, List.append_nil, List.mem_append, List.mem_singleton,
        Prod.mk.injEq] at hs
      rcases hs with hs | hs
      · exact absurd hs hs'
      · omega
    · intro q' hlt'
      rw [get_brand_string_stable q' out m h]
      simp [expected_brand, expected_brand_writes, hlt, hlt']
  · intro hnlt
    exact ⟨by simp [expected_brand, hnlt], by simp [hnlt]⟩
  · by_cases hlt : (query q 0x80000000 0).eax < 0x80000004 <;> simp [expected_brand, hlt]

theorem get_brand_string_placeholder_witness :
    (Buf.uninit (fun i => i + 65) 49).bytes.length = 49 ∧
    ∃ b m', get_brand_string (stable (fun _ _ => ⟨0, 1, 2, 3⟩))
        (Buf.uninit (fun i => i + 65) 49) ⟨[], []⟩ = some (b, m') ∧
      b.bytes = placeholder_bytes ∧ m'.queries = [(0x80000000, 0)] := by
  refine ⟨by decide, ?_⟩
  obtain ⟨b, m', h1, h2, -, -⟩ := get_brand_string_placeholder (fun _ _ => ⟨0, 1, 2, 3⟩)
    (Buf.uninit (fun i => i + 65) 49) ⟨[], []⟩ (by decide)
  exact ⟨b, m', h1, (h2 (by decide)).1, (h2 (by decide)).2.1⟩

theorem head8_append (a b : String) (h : 8 ≤ a.data.length) : head8 (a ++ b) = head8 a := by
  simp [head8, String.data_append, List.take_append_of_le_length h]

theorem length_append_ge (a b : String) (h : 8 ≤ a.data.length) :
    8 ≤ (a ++ b).data.length := by
  simp only [String.data_append, List.length_append]; omega

theorem pad28_length (s : String) : 8 ≤ (pad28 s).data.length := by
  simp [pad28]; omega

theorem head8_feature_line (name : String) (s : Nat) (d : String) :
    head8 (feature_line name s d) = head8 (pad28 name) := by
  unfold feature_line
  have h := pad28_length name
  rw [head8_append, head8_append, head8_append, head8_append, head8_append]
  all_goals repeat (first | exact h | apply length_append_ge)

theorem head8_header (q : Nat → Nat → Regs) :
    (header_lines q).map head8
      = ["Vendor I".data, "Brand St".data, "Max Basi".data, "Max Exte".data] := by
  simp only [header_lines, List.map]
  rw [head8_append, head8_append, head8_append, head8_append, head8_append, head8_append,
    head8_append, head8_append]
  · decide
  all_goals repeat (first | decide | apply length_append_ge)

theorem head8_leaf7_raw (r : Regs) : head8 (leaf7_raw r) = "CPUID.(7".data := by
  unfold leaf7_raw
  rw [head8_append, head8_append, head8_append, head8_append, head8_append, head8_append]
  · decide
  all_goals repeat (first | decide | apply length_append_ge)

theorem head8_leaf1_raw (r : Regs) : head8 (leaf1_raw r) = "CPUID.(1".data := by
  unfold leaf1_raw
  rw [head8_append, head8_append, head8_append, head8_append]
  · decide
  all_goals repeat (first | decide | apply length_append_ge)

theorem head8_ext1_raw (r : Regs) : head8 (ext1_raw r) = "CPUID.(0".data := by
  unfold ext1_raw
  rw [head8_append, head8_append]
  · decide
  all_goals repeat (first | decide | apply length_append_ge)

theorem head8_leaf1_group (q : Nat → Nat → Regs) :
    (leaf1_group q).map head8
      = ["CPUID.(1".data, "PAE     ".data, "SSE2    ".data, "\n".data] := by
  simp only [leaf1_group, leaf1_features, List.map, List.cons_append, List.nil_append,
    head8_feature_line, head8_leaf1_raw]
  decide

theorem head8_ext1_group (q : Nat → Nat → Regs) :
    (ext1_group q).map head8
      = if 0x80000001 ≤ (query q 0x80000000 0).eax
        then ["CPUID.(0".data, "NX/XD   ".data, "\n".data] else ["CPUID ex".data] := by
  unfold ext1_group
  split
  · simp only [nx_line, List.map, head8_feature_line, head8_ext1_raw]
    decide
  · decide

theorem head8_leaf7_group (q : Nat → Nat → Regs) :
    (leaf7_group q).map head8
      = if 7 ≤ (query q 0 0).eax
        then ["CPUID.(7".data, "CET_SS (".data, "CET_IBT ".data, "SMEP    ".data,
              "SMAP    ".data, "\n".data]
        else ["CPUID le".data] := by
  unfold leaf7_group
  split
  · simp only [leaf7_features, List.map, List.cons_append, List.nil_append,
      head8_feature_line, head8_leaf7_raw]
    decide
  · decide
theorem expected_stdout_head8 (q : Nat → Nat → Regs) :
    (expected q).machine.stdout.map head8
      = ["Vendor I".data, "Brand St".data, "Max Basi".data, "Max Exte".data]
        ++ (if 7 ≤ (query q 0 0).eax
            then ["CPUID.(7".data, "CET_SS (".data, "CET_IBT ".data, "SMEP    ".data,
                  "SMAP    ".data, "\n".data]
            else ["CPUID le".data])
        ++ ["CPUID.(1".data, "PAE     ".data, "SSE2    ".data, "\n".data]
        ++ (if 0x80000001 ≤ (query q 0x80000000 0).eax
            then ["CPUID.(0".data, "NX/XD   ".data, "\n".data] else ["CPUID ex".data]) := by
  simp only [expected, List.map_append, head8_header, head8_leaf7_group, head8_leaf1_group,
    head8_ext1_group]

theorem not_mem_of_head8 (line : String) (out : List String)
    (h : head8 line ∉ out.map head8) : line ∉ out :=
  fun hm => h (List.mem_map_of_mem head8 hm)

theorem query_congr (q q' : Nat → Nat → Regs) (leaf sub : Nat) (h : q' leaf sub = q leaf sub) :
    query q' leaf sub = query q leaf sub := by
  simp [query, h]

/-- C5: when max_basic_leaf (A of query(0,0)) is below 7, `main` runs to
completion without executing query(7,0), prints the fixed leaf-7 notice where
the extended-feature group would be, prints neither the leaf-7 raw register
line nor any CET_SS, CET_IBT, SMEP or SMAP feature line, and behaves in the same
way on every query function that differs only at selector 7. -/
theorem main_leaf7_unsupported (q : Nat → Nat → Regs) (stack : Nat → Nat)
    (h : (query q 0 0).eax < 7) :
    ∃ o, main (stable q) stack = some o ∧
      o.leaf7 = none ∧
      (∀ sub, (7, sub) ∉ o.machine.queries) ∧
      o.machine.stdout = header_lines q ++ [leaf7_notice] ++ leaf1_group q ++ ext1_group q ∧
      (∀ r, leaf7_raw r ∉ o.machine.stdout) ∧
      (∀ s d, feature_line "CET_SS (Shadow Stack)" s d ∉ o.machine.stdout) ∧
      (∀ s d, feature_line "CET_IBT (Indirect Branch)" s d ∉ o.machine.stdout) ∧
      (∀ s d, feature_line "SMEP" s d ∉ o.machine.stdout) ∧
      (∀ s d, feature_line "SMAP" s d ∉ o.machine.stdout) ∧
      (∀ q' : Nat → Nat → Regs, (∀ leaf sub, leaf ≠ 7 → q' leaf sub = q leaf sub) →
        main (stable q') stack = some o) := by
  have hn : ¬ 7 ≤ (query q 0 0).eax := by omega
  have hheads := expected_stdout_head8 q
  simp only [hn, if_false] at hheads
  refine ⟨expected q, main_stable q stack, by simp [expected, hn], ?_, ?_, ?_, ?_, ?_, ?_, ?_, ?_⟩
  · intro sub
    simp only [expected, expected_queries, hn, if_false]
    split <;> split <;> simp
  · simp [expected, leaf7_group, hn]
  · intro r
    apply not_mem_of_head8
    rw [hheads, head8_leaf7_raw]
    split <;> decide
  · intro s d
    apply not_mem_of_head8
    rw [hheads, head8_feature_line]
    split <;> decide
  · intro s d
    apply not_mem_of_head8
    rw [hheads, head8_feature_line]
    split <;> decide
  · intro s d
    apply not_mem_of_head8
    rw [hheads, head8_feature_line]
    split <;> decide
  · intro s d
    apply not_mem_of_head8
    rw [hheads, head8_feature_line]
    split <;> decide
  · intro q' hq'
    rw [main_stable q' stack]
    have e0 := query_congr q q' 0 0 (hq' 0 0 (by decide))
    have e1 := query_congr q q' 1 0 (hq' 1 0 (by decide))
    have e2 := query_congr q q' 0x80000000 0 (hq' _ 0 (by decide))
    have e3 := query_congr q q' 0x80000001 0 (hq' _ 0 (by decide))
    have e4 := query_congr q q' 0x80000002 0 (hq' _ 0 (by decide))
    have e5 := query_congr q q' 0x80000003 0 (hq' _ 0 (by decide))
    have e6 := query_congr q q' 0x80000004 0 (hq' _ 0 (by decide))
    simp only [expected, expected_queries, header_lines, leaf7_group, leaf1_group, ext1_group,
      expected_brand, expected_brand_writes, e0, e1, e2, e3, e4, e5, e6, hn, if_false]

theorem main_leaf7_unsupported_witness :
    (query old_q 0 0).eax < 7 ∧
    ∃ o, main (stable old_q) (fun _ => 0) = some o ∧
      o.leaf7 = none ∧
      (∀ sub, (7, sub) ∉ o.machine.queries) ∧
      o.machine.stdout = header_lines old_q ++ [leaf7_notice] ++ leaf1_group old_q
        ++ ext1_group old_q ∧
      (∀ r, leaf7_raw r ∉ o.machine.stdout) ∧
      (∀ s d, feature_line "CET_SS (Shadow Stack)" s d ∉ o.machine.stdout) ∧
      (∀ s d, feature_line "CET_IBT (Indirect Branch)" s d ∉ o.machine.stdout) ∧
      (∀ s d, feature_line "SMEP" s d ∉ o.machine.stdout) ∧
      (∀ s d, feature_line "SMAP" s d ∉ o.machine.stdout) ∧
      (∀ q' : Nat → Nat → Regs, (∀ leaf sub, leaf ≠ 7 → q' leaf sub = old_q leaf sub) →
        main (stable q') (fun _ => 0) = some o) :=
  ⟨by decide, main_leaf7_unsupported old_q (fun _ => 0) (by decide)⟩

theorem head8_nx_line (v : Nat) : head8 (nx_line v) = "NX/XD   ".data := by
  rw [nx_line, head8_feature_line]; decide

/-- C6: `main` always runs to completion and decodes the legacy-extended group
exactly when max_extended_leaf (A of query(0x80000000,0)) is at least
0x80000001.  When it is, nx is `(D >> 20) & 1` of query(0x80000001,0), i.e. bit
20 of D (D = 0x00100000 gives 1, D = 0 gives 0), and its raw and NX/XD lines
are printed; when it is not, no query(0x80000001, _) is executed, no raw or
NX/XD line is printed, and the fixed notice ends the report. -/
theorem main_legacy_extended (q : Nat → Nat → Regs) (stack : Nat → Nat) :
    ∃ o, main (stable q) stack = some o ∧
      (o.nx.isSome = true ↔ 0x80000001 ≤ (query q 0x80000000 0).eax) ∧
      (0x80000001 ≤ (query q 0x80000000 0).eax →
        ∃ nx, o.nx = some nx ∧
          nx = ((query q 0x80000001 0).edx >>> 20) &&& 1 ∧
          (nx = 1 ↔ (query q 0x80000001 0).edx.testBit 20 = true) ∧
          (nx = 0 ∨ nx = 1) ∧
          ((query q 0x80000001 0).edx = 0x00100000 → nx = 1) ∧
          ((query q 0x80000001 0).edx = 0 → nx = 0) ∧
          (0x80000001, 0) ∈ o.machine.queries ∧
          ext1_raw (query q 0x80000001 0) ∈ o.machine.stdout ∧
          nx_line nx ∈ o.machine.stdout ∧
          ext1_notice ∉ o.machine.stdout) ∧
      (¬ 0x80000001 ≤ (query q 0x80000000 0).eax →
        o.nx = none ∧
        (∀ sub, (0x80000001, sub) ∉ o.machine.queries) ∧
        (∀ r, ext1_raw r ∉ o.machine.stdout) ∧
        (∀ v, nx_line v ∉ o.machine.stdout) ∧
        o.machine.stdout.getLast? = some ext1_notice) := by
  have hheads := expected_stdout_head8 q
  refine ⟨expected q, main_stable q stack, ?_, ?_, ?_⟩
  · by_cases hE : 0x80000001 ≤ (query q 0x80000000 0).eax <;> simp [expected, hE]
  · intro hE
    simp only [hE, if_true] at hheads
    refine ⟨bit (query q 0x80000001 0).edx 20, by simp [expected, hE],
      (shr_and_one _ _).symm, bit_eq_one_iff _ _, bit_le_one _ _, ?_, ?_, ?_, ?_, ?_, ?_⟩
    · intro hd; simp [hd, bit]
    · intro hd; simp [hd, bit]
    · simp [expected, expected_queries, hE]
    · simp [expected, ext1_group, hE]
    · simp [expected, ext1_group, hE]
    · apply not_mem_of_head8
      rw [hheads]
      split <;> decide
  · intro hE
    simp only [hE, if_false] at hheads
    refine ⟨by simp [expected, hE], ?_, ?_, ?_, ?_⟩
    · intro sub
      simp only [expected, expected_queries, hE, if_false]
      split <;> split <;> simp
    · intro r
      apply not_mem_of_head8
      rw [hheads, head8_ext1_raw]
      split <;> decide
    · intro v
      apply not_mem_of_head8
      rw [hheads, head8_nx_line]
      split <;> decide
    · simp [expected, ext1_group, hE]

/-- C7: whatever max_basic_leaf and max_extended_leaf are, `main` runs to
completion, executes query(1,0), and its locals pae and sse2 are `(D >> 6) & 1`
and `(D >> 26) & 1` of that query, i.e. bits 6 and 26 of D; D = (1<<6)|(1<<26)
gives pae = sse2 = 1 and D = 0 gives pae = sse2 = 0. -/
theorem main_basic_features (q : Nat → Nat → Regs) (stack : Nat → Nat) :
    ∃ o, main (stable q) stack = some o ∧
      (1, 0) ∈ o.machine.queries ∧
      o.pae = ((query q 1 0).edx >>> 6) &&& 1 ∧
      o.sse2 = ((query q 1 0).edx >>> 26) &&& 1 ∧
      (o.pae = 1 ↔ (query q 1 0).edx.testBit 6 = true) ∧
      (o.sse2 = 1 ↔ (query q 1 0).edx.testBit 26 = true) ∧
      (o.pae = 0 ∨ o.pae = 1) ∧ (o.sse2 = 0 ∨ o.sse2 = 1) ∧
      ((query q 1 0).edx = (1 <<< 6) ||| (1 <<< 26) → o.pae = 1 ∧ o.sse2 = 1) ∧
      ((query q 1 0).edx = 0 → o.pae = 0 ∧ o.sse2 = 0) := by
  refine ⟨expected q, main_stable q stack, ?_, (shr_and_one _ _).symm, (shr_and_one _ _).symm,
    bit_eq_one_iff _ _, bit_eq_one_iff _ _, bit_le_one _ _, bit_le_one _ _, ?_, ?_⟩
  · simp [expected, expected_queries]
  · intro hd
    have hv : (1 <<< 6) ||| (1 <<< 26) = 67108928 := by decide
    simp [expected, hd, hv, bit]
  · intro hd
    simp [expected, hd, bit]

/-- C8, as stated, fails for selector 1: on a processor reporting
max_basic_leaf = 0 `main` still executes query(1,0) and decodes pae = 1 and
sse2 = 1 from it, although 1 exceeds max_basic_leaf. -/
theorem main_leaf1_unguarded :
    ∃ o, main (stable leaf0_only_q) (fun _ => 0) = some o ∧
      o.max_basic_leaf = (query leaf0_only_q 0 0).eax ∧
      (1, 0) ∈ o.machine.queries ∧ o.pae = 1 ∧ o.sse2 = 1 ∧
      ¬ 1 ≤ o.max_basic_leaf :=
  ⟨expected leaf0_only_q, main_stable _ _, by decide, by decide, by decide, by decide,
    by decide⟩

/-- C8 (amended): `main` always runs to completion and queries only selectors
0, 1, 7 and 0x80000000..0x80000004, each with sub-selector 0.  Every queried
basic selector other than 1 is at most max_basic_leaf (A of query(0,0)) and
every queried extended selector above 0x80000000 is at most max_extended_leaf
(A of query(0x80000000,0)); the leaf-7 flags are decoded only if
7 ≤ max_basic_leaf and nx only if 0x80000001 ≤ max_extended_leaf.  Selector 1
is queried on every run, without a guard. -/
theorem main_guard_invariant (q : Nat → Nat → Regs) (stack : Nat → Nat) :
    ∃ o, main (stable q) stack = some o ∧
      o.max_basic_leaf = (query q 0 0).eax ∧
      o.max_extended_leaf = (query q 0x80000000 0).eax ∧
      (∀ s sub, (s, sub) ∈ o.machine.queries →
        sub = 0 ∧ (s = 0 ∨ s = 1 ∨ s = 7 ∨ s = 0x80000000 ∨ s = 0x80000001 ∨
          s = 0x80000002 ∨ s = 0x80000003 ∨ s = 0x80000004)) ∧
      (∀ s sub, (s, sub) ∈ o.machine.queries → s < 0x80000000 → s ≠ 1 →
        s ≤ o.max_basic_leaf) ∧
      (∀ s sub, (s, sub) ∈ o.machine.queries → 0x80000000 < s →
        s ≤ o.max_extended_leaf) ∧
      (o.leaf7.isSome = true → 7 ≤ o.max_basic_leaf) ∧
      (o.nx.isSome = true → 0x80000001 ≤ o.max_extended_leaf) ∧
      (o.brand.bytes ≠ placeholder_bytes → 0x80000004 ≤ o.max_extended_leaf) ∧
      (1, 0) ∈ o.machine.queries := by
  refine ⟨expected q, main_stable q stack, rfl, rfl, ?_, ?_, ?_, ?_, ?_, ?_, ?_⟩
  · intro s sub hs
    simp only [expected, expected_queries] at hs
    split at hs <;> split at hs <;> split at hs <;>
      simp only [List.mem_append, List.mem_cons, List.mem_singleton, Prod.mk.injEq,
        List.not_mem_nil, or_false, false_or] at hs <;> omega
  · intro s sub hs hlt h1
    simp only [expected, expected_queries] at hs ⊢
    split at hs <;> split at hs <;> split at hs <;>
      simp only [List.mem_append, List.mem_cons, List.mem_singleton, Prod.mk.injEq,
        List.not_mem_nil, or_false, false_or] at hs <;> omega
  · intro s sub hs hgt
    simp only [expected, expected_queries] at hs ⊢
    split at hs <;> split at hs <;> split at hs <;>
      simp only [List.mem_append, List.mem_cons, List.mem_singleton, Prod.mk.injEq,
        List.not_mem_nil, or_false, false_or] at hs <;> omega
  · by_cases h7 : 7 ≤ (query q 0 0).eax <;> simp [expected, h7]
  · by_cases hE : 0x80000001 ≤ (query q 0x80000000 0).eax <;> simp [expected, hE]
  · by_cases hlt : (query q 0x80000000 0).eax < 0x80000004
    · simp [expected, expected_brand, hlt]
    · intro _; simp only [expected]; omega
  · simp [expected, expected_queries]

/-- C9: on every query function `main` runs to completion and its output is, in
this order: the vendor id line, the brand string line, the max basic leaf line,
the max extended leaf line; then the leaf-7 raw line, the CET_SS, CET_IBT, SMEP
and SMAP lines and a blank line, or the leaf-7 notice alone; then the leaf-1 raw
line, the PAE and SSE2 lines and a blank line; then the leaf-0x80000001 raw line,
the NX/XD line and a blank line, or its notice alone.  The printed values are
those of the locals of `main`. -/
theorem main_report_order (q : Nat → Nat → Regs) (stack : Nat → Nat) :
    ∃ o, main (stable q) stack = some o ∧
      o.machine.stdout =
        ["Vendor ID        : " ++ ctext o.vendor.bytes ++ "\n",
         "Brand String     : " ++ ctext o.brand.bytes ++ "\n",
         "Max Basic Leaf   : 0x" ++ hex8 o.max_basic_leaf ++ "\n",
         "Max Extended Leaf: 0x" ++ hex8 o.max_extended_leaf ++ "\n\n"]
        ++ (match o.leaf7 with
            | some f => [leaf7_raw (query q 7 0)] ++ leaf7_features f ++ ["\n"]
            | none => [leaf7_notice])
        ++ ([leaf1_raw (query q 1 0)] ++ leaf1_features o.pae o.sse2 ++ ["\n"])
        ++ (match o.nx with
            | some nx => [ext1_raw (query q 0x80000001 0), nx_line nx, "\n"]
            | none => [ext1_notice]) ∧
      (o.leaf7.isSome = true ↔ 7 ≤ (query q 0 0).eax) ∧
      (o.nx.isSome = true ↔ 0x80000001 ≤ (query q 0x80000000 0).eax) ∧
      o.machine.stdout.map head8 =
        ["Vendor I".data, "Brand St".data, "Max Basi".data, "Max Exte".data]
        ++ (if 7 ≤ (query q 0 0).eax
            then ["CPUID.(7".data, "CET_SS (".data, "CET_IBT ".data, "SMEP    ".data,
                  "SMAP    ".data, "\n".data]
            else ["CPUID le".data])
        ++ ["CPUID.(1".data, "PAE     ".data, "SSE2    ".data, "\n".data]
        ++ (if 0x80000001 ≤ (query q 0x80000000 0).eax
            then ["CPUID.(0".data, "NX/XD   ".data, "\n".data] else ["CPUID ex".data]) := by
  refine ⟨expected q, main_stable q stack, ?_, ?_, ?_, expected_stdout_head8 q⟩
  · by_cases h7 : 7 ≤ (query q 0 0).eax <;>
    by_cases hE : 0x80000001 ≤ (query q 0x80000000 0).eax <;>
    simp [expected, header_lines, leaf7_group, leaf1_group, ext1_group, h7, hE]
  · by_cases h7 : 7 ≤ (query q 0 0).eax <;> simp [expected, h7]
  · by_cases hE : 0x80000001 ≤ (query q 0x80000000 0).eax <;> simp [expected, hE]

theorem hex8_samples :
    hex8 0 = "00000000" ∧ hex8 0xabc = "00000abc" ∧ hex8 0x80000008 = "80000008" ∧
      hex8 0xffffffff = "ffffffff" := by decide

set_option maxRecDepth 100000 in
/-- C10, as stated, fails for the leaf-7 group: on a processor with
max_basic_leaf = 7 whose query(7,0) returns A = 0x12345678, B = 0x80, C = 0,
D = 0x100000, the raw line shows B, C and D only, the digits of A occur in no
line of the report, and the report is the same when A is 0x0fedcba9 instead. -/
theorem main_leaf7_raw_without_eax :
    7 ≤ (query leaf7_eax_q 0 0).eax ∧ (query leaf7_eax_q 7 0).eax = 0x12345678 ∧
    (main (stable leaf7_eax_q) (fun _ => 0)).map (fun o => (o.machine.stdout.drop 4).take 6)
      = some ["CPUID.(7,0): EBX=0x00000080 ECX=0x00000000 EDX=0x00100000\n",
          "CET_SS (Shadow Stack)       : not supported  - CET: protects return addresses using a hardware shadow stack\n",
          "CET_IBT (Indirect Branch)   : SUPPORTED  - CET: requires ENDBR64 at valid indirect call/jump targets\n",
          "SMEP                        : SUPPORTED  - Kernel hardening: prevents executing user pages in supervisor mode\n",
          "SMAP                        : not supported  - Kernel hardening: prevents supervisor access to user pages without opt-in\n",
          "\n"] ∧
    (main (stable leaf7_eax_q) (fun _ => 0)).map
        (fun o => o.machine.stdout.all (fun line => !decide ("12345678".data <:+: line.data)))
      = some true ∧
    (query leaf7_eax_q' 7 0).eax ≠ (query leaf7_eax_q 7 0).eax ∧
    (main (stable leaf7_eax_q') (fun _ => 0)).map (fun o => o.machine.stdout)
      = (main (stable leaf7_eax_q) (fun _ => 0)).map (fun o => o.machine.stdout) := by
  refine ⟨by decide, by decide, by decide, ?_, by decide, by decide⟩
  rw [main_stable]
  decide

/-- C10 (amended): when max_basic_leaf is at least 7, the extended-feature group
of the report is one raw line showing the three values B, C and D of query(7,0)
as 8 hex digits (A is not shown: the run is the same for every processor that
differs only in that A), followed by the four named feature lines; the
basic-feature group starts with a raw line showing C and D of query(1,0), and
the legacy-extended group, when supported, with a raw line showing D of
query(0x80000001,0). -/
theorem main_raw_registers (q : Nat → Nat → Regs) (stack : Nat → Nat)
    (h7 : 7 ≤ (query q 0 0).eax) :
    ∃ o, main (stable q) stack = some o ∧
      o.machine.stdout = header_lines q
        ++ (["CPUID.(7,0): EBX=0x" ++ hex8 (query q 7 0).ebx ++ " ECX=0x"
              ++ hex8 (query q 7 0).ecx ++ " EDX=0x" ++ hex8 (query q 7 0).edx ++ "\n"]
            ++ leaf7_features (leaf7_flags (query q 7 0)) ++ ["\n"])
        ++ (["CPUID.(1,0): ECX=0x" ++ hex8 (query q 1 0).ecx ++ " EDX=0x"
              ++ hex8 (query q 1 0).edx ++ "\n"]
            ++ leaf1_features (bit (query q 1 0).edx 6) (bit (query q 1 0).edx 26) ++ ["\n"])
        ++ (if 0x80000001 ≤ (query q 0x80000000 0).eax then
              ["CPUID.(0x80000001,0): EDX=0x" ++ hex8 (query q 0x80000001 0).edx ++ "\n",
               nx_line (bit (query q 0x80000001 0).edx 20), "\n"]
            else [ext1_notice]) ∧
      (∀ q' : Nat → Nat → Regs, (∀ leaf sub, leaf ≠ 7 → q' leaf sub = q leaf sub) →
        (query q' 7 0).ebx = (query q 7 0).ebx → (query q' 7 0).ecx = (query q 7 0).ecx →
        (query q' 7 0).edx = (query q 7 0).edx → main (stable q') stack = some o) := by
  refine ⟨expected q, main_stable q stack, ?_, ?_⟩
  · simp [expected, leaf7_group, leaf1_group, ext1_group, leaf7_raw, leaf1_raw, ext1_raw, h7]
  · intro q' hq' hb hc hd
    rw [main_stable q' stack]
    have e0 := query_congr q q' 0 0 (hq' 0 0 (by decide))
    have e1 := query_congr q q' 1 0 (hq' 1 0 (by decide))
    have e2 := query_congr q q' 0x80000000 0 (hq' _ 0 (by decide))
    have e3 := query_congr q q' 0x80000001 0 (hq' _ 0 (by decide))
    have e4 := query_congr q q' 0x80000002 0 (hq' _ 0 (by decide))
    have e5 := query_congr q q' 0x80000003 0 (hq' _ 0 (by decide))
    have e6 := query_congr q q' 0x80000004 0 (hq' _ 0 (by decide))
    simp only [expected, expected_queries, header_lines, leaf7_group, leaf1_group, ext1_group,
      expected_brand, expected_brand_writes, leaf7_raw, leaf7_flags, e0, e1, e2, e3, e4, e5,
      e6, hb, hc, hd]

theorem main_raw_registers_witness :
    7 ≤ (query sample_q 0 0).eax ∧
    ∃ o, main (stable sample_q) (fun _ => 0) = some o ∧
      o.machine.stdout = header_lines sample_q
        ++ (["CPUID.(7,0): EBX=0x" ++ hex8 (query sample_q 7 0).ebx ++ " ECX=0x"
              ++ hex8 (query sample_q 7 0).ecx ++ " EDX=0x" ++ hex8 (query sample_q 7 0).edx
              ++ "\n"]
            ++ leaf7_features (leaf7_flags (query sample_q 7 0)) ++ ["\n"])
        ++ (["CPUID.(1,0): ECX=0x" ++ hex8 (query sample_q 1 0).ecx ++ " EDX=0x"
              ++ hex8 (query sample_q 1 0).edx ++ "\n"]
            ++ leaf1_features (bit (query sample_q 1 0).edx 6) (bit (query sample_q 1 0).edx 26)
            ++ ["\n"])
        ++ (if 0x80000001 ≤ (query sample_q 0x80000000 0).eax then
              ["CPUID.(0x80000001,0): EDX=0x" ++ hex8 (query sample_q 0x80000001 0).edx ++ "\n",
               nx_line (bit (query sample_q 0x80000001 0).edx 20), "\n"]
            else [ext1_notice]) ∧
      (∀ q' : Nat → Nat → Regs, (∀ leaf sub, leaf ≠ 7 → q' leaf sub = sample_q leaf sub) →
        (query q' 7 0).ebx = (query sample_q 7 0).ebx →
        (query q' 7 0).ecx = (query sample_q 7 0).ecx →
        (query q' 7 0).edx = (query sample_q 7 0).edx →
        main (stable q') (fun _ => 0) = some o) :=
  ⟨by decide, main_raw_registers sample_q (fun _ => 0) (by decide)⟩

theorem ctext_placeholder : ctext placeholder_bytes = "(brand string not supported)" := by
  decide

/-- C11, as stated, fails on the text: on a processor without extended leaves the
brand buffer and the brand string line carry "(brand string not supported)",
in parentheses, not "brand string not supported". -/
theorem main_brand_placeholder_text_differs :
    (query old_q 0x80000000 0).eax < 0x80000004 ∧
    (main (stable old_q) (fun _ => 0)).map (fun o => ctext o.brand.bytes)
      = some "(brand string not supported)" ∧
    (main (stable old_q) (fun _ => 0)).map (fun o => ctext o.brand.bytes)
      ≠ some "brand string not supported" ∧
    (main (stable old_q) (fun _ => 0)).map (fun o => o.machine.stdout.get? 1)
      = some (some "Brand String     : (brand string not supported)\n") := by
  decide

/-- C11 (amended): when the A field of query(0x80000000,0) is below 0x80000004,
the 49-byte buffer produced by `get_brand_string` holds the 28 characters of
"(brand string not supported)" (parentheses included, nothing cut off) in
bytes 0..27 and NUL in every byte 28..48, and the brand string line of the
report is that text after its label. -/
theorem main_brand_placeholder (q : Nat → Nat → Regs) (stack : Nat → Nat)
    (h : (query q 0x80000000 0).eax < 0x80000004) :
    ∃ o, main (stable q) stack = some o ∧
      o.brand.bytes.length = 49 ∧
      o.brand.bytes.take 28 = lit "(brand string not supported)" ∧
      (lit "(brand string not supported)").length = 28 ∧
      (∀ i, 28 ≤ i → i ≤ 48 → o.brand.bytes.get? i = some 0) ∧
      ctext o.brand.bytes = "(brand string not supported)" ∧
      o.machine.stdout.get? 1 = some "Brand String     : (brand string not supported)\n" := by
  refine ⟨expected q, main_stable q stack, ?_, ?_, by decide, ?_, ?_, ?_⟩
  · simp only [expected, expected_brand, h, if_true]; decide
  · simp only [expected, expected_brand, h, if_true]; decide
  · intro i h1 h2
    simp only [expected, expected_brand, h, if_true]
    interval_cases i <;> decide
  · simp only [expected, expected_brand, h, if_true]; decide
  · simp only [expected, header_lines, expected_brand, h, if_true, ctext_placeholder,
      List.cons_append, List.get?]
    decide

theorem main_brand_placeholder_witness :
    (query old_q 0x80000000 0).eax < 0x80000004 ∧
    ∃ o, main (stable old_q) (fun _ => 0) = some o ∧
      o.brand.bytes.length = 49 ∧
      o.brand.bytes.take 28 = lit "(brand string not supported)" ∧
      (lit "(brand string not supported)").length = 28 ∧
      (∀ i, 28 ≤ i → i ≤ 48 → o.brand.bytes.get? i = some 0) ∧
      ctext o.brand.bytes = "(brand string not supported)" ∧
      o.machine.stdout.get? 1 = some "Brand String     : (brand string not supported)\n" :=
  ⟨by decide, main_brand_placeholder old_q (fun _ => 0) (by decide)⟩

theorem takeWhile_nul_length (l : List Nat) :
    ((l ++ [0]).takeWhile (fun b => b ≠ 0)).length ≤ l.length := by
  induction l with
  | nil => simp
  | cons a l ih =>
    by_cases ha : a = 0
    · simp [List.takeWhile_cons, ha]
    · have hd : decide (a ≠ 0) = true := by simp [ha]
      rw [List.cons_append, List.takeWhile_cons, hd, if_pos rfl, List.length_cons,
        List.length_cons]
      exact Nat.succ_le_succ ih

theorem takeWhile_nul_of_nonzero (l : List Nat) (h : ∀ b ∈ l, b ≠ 0) :
    (l ++ [0]).takeWhile (fun b => b ≠ 0) = l := by
  induction l with
  | nil => simp
  | cons a l ih =>
    have ha : a ≠ 0 := h a (List.mem_cons_self a l)
    have hd : decide (a ≠ 0) = true := by simp [ha]
    rw [List.cons_append, List.takeWhile_cons, hd, if_pos rfl,
      ih (fun b hb => h b (List.mem_cons_of_mem a hb))]

theorem ofNat_toNat_printable (b : Nat) (h1 : 0x20 ≤ b) (h2 : b ≤ 0x7E) :
    (Char.ofNat b).toNat = b := by
  interval_cases b <;> rfl

theorem vendor_bytes_split (r : Regs) :
    vendor_bytes r = (vendor_bytes r).take 12 ++ [0] ∧ ((vendor_bytes r).take 12).length = 12 := by
  simp [vendor_bytes, le_bytes]

/-- C12, as stated, fails: on a processor whose query(0,0) returns B = C = D = 0
the vendor buffer starts with a NUL, the rendered vendor string is empty (0
characters, not 12) and the vendor line is the bare label. -/
theorem main_vendor_text_empty :
    (main (stable leaf0_only_q) (fun _ => 0)).map (fun o => (ctext o.vendor.bytes).length)
      = some 0 ∧
    (main (stable leaf0_only_q) (fun _ => 0)).map (fun o => (ctext o.vendor.bytes).length)
      ≠ some 12 ∧
    (main (stable leaf0_only_q) (fun _ => 0)).map (fun o => o.machine.stdout.get? 0)
      = some (some "Vendor ID        : \n") := by
  decide

/-- C12 (amended): for every result (A,B,C,D) of query(0,0), the vendor buffer
holds the 12 bytes of B, D, C and a NUL, and the string rendered on the vendor
line is those bytes up to the first NUL: at most 12 characters, exactly 12 when
none of the 12 bytes is NUL, and exactly the 12 printable ASCII characters of
those codes when every one of the 12 bytes lies in 0x20..0x7E.  The program does
not check the bytes. -/
theorem main_vendor_text (q : Nat → Nat → Regs) (stack : Nat → Nat) :
    ∃ o, main (stable q) stack = some o ∧
      o.vendor.bytes = le_bytes (query q 0 0).ebx ++ le_bytes (query q 0 0).edx
        ++ le_bytes (query q 0 0).ecx ++ [0] ∧
      o.machine.stdout.get? 0 = some ("Vendor ID        : " ++ ctext o.vendor.bytes ++ "\n") ∧
      (ctext o.vendor.bytes).length ≤ 12 ∧
      ((∀ b ∈ o.vendor.bytes.take 12, b ≠ 0) → (ctext o.vendor.bytes).length = 12) ∧
      ((∀ b ∈ o.vendor.bytes.take 12, 0x20 ≤ b ∧ b ≤ 0x7E) →
        (ctext o.vendor.bytes).data = (o.vendor.bytes.take 12).map Char.ofNat ∧
        (ctext o.vendor.bytes).length = 12 ∧
        ∀ c ∈ (ctext o.vendor.bytes).data, 0x20 ≤ c.toNat ∧ c.toNat ≤ 0x7E) := by
  obtain ⟨hsplit, hlen⟩ := vendor_bytes_split (query q 0 0)
  refine ⟨expected q, main_stable q stack, rfl, ?_, ?_, ?_, ?_⟩
  · simp [expected, header_lines]
  · show (ctext (vendor_bytes (query q 0 0))).length ≤ 12
    rw [hsplit]
    have := takeWhile_nul_length ((vendor_bytes (query q 0 0)).take 12)
    simp only [ctext, String.length, List.length_map]
    omega
  · intro hnz
    have hnz' : ∀ b ∈ (vendor_bytes (query q 0 0)).take 12, b ≠ 0 := hnz
    show (ctext (vendor_bytes (query q 0 0))).length = 12
    rw [hsplit]
    simp only [ctext, String.length, List.length_map]
    rw [takeWhile_nul_of_nonzero _ hnz']
    exact hlen
  · intro hp0
    have hp : ∀ b ∈ (vendor_bytes (query q 0 0)).take 12, 0x20 ≤ b ∧ b ≤ 0x7E := hp0
    have hnz : ∀ b ∈ (vendor_bytes (query q 0 0)).take 12, b ≠ 0 := by
      intro b hb
      have := hp b hb
      omega
    have htw := takeWhile_nul_of_nonzero _ hnz
    have hdata : (ctext (vendor_bytes (query q 0 0))).data
        = ((vendor_bytes (query q 0 0)).take 12).map Char.ofNat := by
      rw [ctext]
      conv_lhs => rw [hsplit]
      rw [htw]
    refine ⟨hdata, ?_, ?_⟩
    · show (ctext (vendor_bytes (query q 0 0))).length = 12
      rw [String.length, hdata, List.length_map]
      exact hlen
    · intro c hc
      change c ∈ (ctext (vendor_bytes (query q 0 0))).data at hc
      rw [hdata, List.mem_map] at hc
      obtain ⟨b, hb, rfl⟩ := hc
      have := hp b hb
      rw [ofNat_toNat_printable b this.1 this.2]
      exact this

theorem placeholder_bytes_nul : 0 ∈ placeholder_bytes := by decide

theorem brand_bytes_nul (r2 r3 r4 : Regs) : 0 ∈ brand_bytes r2 r3 r4 := by
  simp [brand_bytes]

theorem cpuid_fst (hw : Hardware) (leaf subleaf : Nat) (m : Machine) :
    (cpuid hw leaf subleaf m).1 = (hw m.queries.length (u32 leaf) (u32 subleaf)).trunc := rfl

theorem cpuid_snd (hw : Hardware) (leaf subleaf : Nat) (m : Machine) :
    (cpuid hw leaf subleaf m).2 = ⟨m.queries ++ [(u32 leaf, u32 subleaf)], m.stdout⟩ := rfl

theorem main_leaf7_spec (hw : Hardware) (mb : Nat) (m : Machine) :
    ((main_leaf7 hw mb m).1.isSome = true ↔ 7 ≤ mb) ∧
      ∃ ex, (main_leaf7 hw mb m).2.stdout = m.stdout ++ ex := by
  unfold main_leaf7
  split
  · next h => exact ⟨by simp [h], _, by simp [printf, print_feature, cpuid_snd]; rfl⟩
  · next h => exact ⟨by simp [h], _, by simp [printf]; rfl⟩

theorem main_leaf1_spec (hw : Hardware) (m : Machine) :
    ∃ ex, (main_leaf1 hw m).2.stdout = m.stdout ++ ex :=
  ⟨_, by simp [main_leaf1, printf, print_feature, cpuid_snd]; rfl⟩

theorem main_ext1_spec (hw : Hardware) (me : Nat) (m : Machine) :
    ((main_ext1 hw me m).1.isSome = true ↔ 0x80000001 ≤ me) ∧
      ∃ ex, (main_ext1 hw me m).2.stdout = m.stdout ++ ex := by
  unfold main_ext1
  split
  · next h => exact ⟨by simp [h], _, by simp [printf, print_feature, cpuid_snd]; rfl⟩
  · next h => exact ⟨by simp [h], _, by simp [printf]; rfl⟩

theorem get_brand_string_general (hw : Hardware) (out : Buf) (m : Machine)
    (h : out.bytes.length = 49) :
    ∃ b m', get_brand_string hw out m = some (b, m') ∧ m'.stdout = m.stdout ∧
      0 ∈ b.bytes ∧
      b.bytes =
        (if (hw m.queries.length 0x80000000 0).trunc.eax < 0x80000004 then placeholder_bytes
         else brand_bytes (hw (m.queries.length + 1) 0x80000002 0).trunc
           (hw (m.queries.length + 2) 0x80000003 0).trunc
           (hw (m.queries.length + 3) 0x80000004 0).trunc) := by
  by_cases hlt : (hw m.queries.length 0x80000000 0).trunc.eax < 0x80000004
  · refine ⟨_, _, get_brand_string_unsupported hw out m h
      (by simpa [cpuid_fst, u32] using hlt), rfl, placeholder_bytes_nul, by simp [hlt]⟩
  · refine ⟨_, _, get_brand_string_supported hw out m h
      (by simp [cpuid_fst, u32]; omega), rfl, brand_bytes_nul _ _ _, ?_⟩
    simp [hlt, cpuid_fst, cpuid_snd, u32, Nat.add_assoc]

theorem groups_keep_stdout (hw : Hardware) (mb me : Nat) (m : Machine) (i : Nat)
    (hi : i < m.stdout.length) :
    (main_ext1 hw me (main_leaf1 hw (main_leaf7 hw mb m).2).2).2.stdout.get? i
      = m.stdout.get? i := by
  obtain ⟨e1, h1⟩ := (main_leaf7_spec hw mb m).2
  obtain ⟨e2, h2⟩ := main_leaf1_spec hw (main_leaf7 hw mb m).2
  obtain ⟨e3, h3⟩ := (main_ext1_spec hw me (main_leaf1 hw (main_leaf7 hw mb m).2).2).2
  rw [h3, h2, h1, List.append_assoc, List.append_assoc, List.get?_eq_getElem?,
    List.get?_eq_getElem?, List.getElem?_append_left hi]

/-- On any processor, stable or not, `main` runs to completion with status 0.
The reads of `main` itself are the `cpuid` executions number 1 and 2; the read
that decides the brand string is execution number 3. -/
theorem main_total (hw : Hardware) (stack : Nat → Nat) :
    ∃ o, main hw stack = some o ∧ o.status = 0 ∧
      o.max_basic_leaf = (hw 1 0 0).trunc.eax ∧
      o.max_extended_leaf = (hw 2 0x80000000 0).trunc.eax ∧
      o.brand.bytes =
        (if (hw 3 0x80000000 0).trunc.eax < 0x80000004 then placeholder_bytes
         else brand_bytes (hw 4 0x80000002 0).trunc (hw 5 0x80000003 0).trunc
           (hw 6 0x80000004 0).trunc) ∧
      o.machine.stdout.get? 1 = some ("Brand String     : " ++ ctext o.brand.bytes ++ "\n") ∧
      o.machine.stdout.get? 3
        = some ("Max Extended Leaf: 0x" ++ hex8 o.max_extended_leaf ++ "\n\n") ∧
      (o.nx.isSome = true ↔ 0x80000001 ≤ o.max_extended_leaf) ∧
      (o.leaf7.isSome = true ↔ 7 ≤ o.max_basic_leaf) := by
  obtain ⟨b, m', hb, hbs, hb0, hbb⟩ := get_brand_string_general hw
    (Buf.uninit (fun i => stack (13 + i)) 49)
    (cpuid hw 0x80000000 0 (cpuid hw 0 0 (cpuid hw 0 0 ⟨[], []⟩).2).2).2 (uninit_length _ 49)
  have hm' : m'.stdout = [] := by rw [hbs]; rfl
  simp only [main, bind, Option.bind, pure, get_vendor_id_eq _ _ _ (uninit_length stack 13),
    hb, cstr, vendor_bytes_nul, hb0, if_true]
  refine ⟨_, rfl, rfl, ?_, ?_, ?_, ?_, ?_, (main_ext1_spec _ _ _).1, (main_leaf7_spec _ _ _).1⟩
  · simp [cpuid_fst, cpuid_snd, u32]
  · simp [cpuid_fst, cpuid_snd, u32]
  · rw [hbb]; simp [cpuid_snd, u32]
  · simp only []
    rw [groups_keep_stdout _ _ _ _ _ (by simp [printf, hm'])]
    simp [printf, hm']
  · simp only []
    rw [groups_keep_stdout _ _ _ _ _ (by simp [printf, hm'])]
    simp [printf, hm']

/-- C13: on every processor, also one with max_basic_leaf < 7 and
max_extended_leaf < 0x80000001, `main` runs to completion and returns exit
status 0; it never fails and never returns another status.  In the
all-unsupported case both notices are printed. -/
theorem main_exit_status (hw : Hardware) (stack : Nat → Nat) :
    (∃ o, main hw stack = some o ∧ o.status = 0) ∧
    main hw stack ≠ none ∧
    (∀ o, main hw stack = some o → o.status = 0) ∧
    (∀ q : Nat → Nat → Regs, (query q 0 0).eax < 7 →
      (query q 0x80000000 0).eax < 0x80000001 →
      ∃ o, main (stable q) stack = some o ∧ o.status = 0 ∧ o.leaf7 = none ∧ o.nx = none ∧
        leaf7_notice ∈ o.machine.stdout ∧ ext1_notice ∈ o.machine.stdout) := by
  obtain ⟨o, ho, hs, -⟩ := main_total hw stack
  refine ⟨⟨o, ho, hs⟩, by simp [ho], ?_, ?_⟩
  · intro o' ho'
    rw [ho] at ho'
    cases ho'
    exact hs
  · intro q h7 hE
    have h7' : ¬ 7 ≤ (query q 0 0).eax := by omega
    have hE' : ¬ 0x80000001 ≤ (query q 0x80000000 0).eax := by omega
    exact ⟨expected q, main_stable q stack, rfl, by simp [expected, h7'],
      by simp [expected, hE'], by simp [expected, leaf7_group, h7'],
      by simp [expected, ext1_group, hE']⟩

theorem feature_line_eq_status (name : String) (s : Nat) (d : String) :
    feature_line name s d = status_line name (decide (s ≠ 0)) d := by
  by_cases h : s = 0 <;> simp [feature_line, status_line, status_word, h]

theorem feature_line_bit (name : String) (x i : Nat) (d : String) :
    feature_line name (bit x i) d = status_line name (x.testBit i) d := by
  rw [feature_line_eq_status]
  rcases bit_le_one x i with h | h
  · have ht : x.testBit i = false := by
      cases hb : x.testBit i
      · rfl
      · rw [(bit_eq_one_iff x i).2 hb] at h; exact absurd h (by decide)
    simp [h, ht]
  · simp [h, (bit_eq_one_iff x i).1 h]

theorem string_append_data (a b : String) : (a ++ b).data = a.data ++ b.data :=
  String.data_append a b

theorem status_line_inj (name : String) (b b' : Bool) (d d' : String)
    (h : status_line name b d = status_line name b' d') : b = b' ∧ d = d' := by
  have hd := congrArg String.data h
  simp only [status_line, string_append_data, List.append_assoc] at hd
  have hd := List.append_cancel_left hd
  have hd := List.append_cancel_left hd
  have key : ∀ x y : List Char, "SUPPORTED".data ++ x ≠ "not supported".data ++ y := by
    intro x y hxy
    have := congrArg List.head? hxy
    simp at this
  cases b <;> cases b'
  · simp only [status_word] at hd
    have hd := List.append_cancel_left hd
    have hd := List.append_cancel_left hd
    have hd := List.append_cancel_right hd
    exact ⟨rfl, String.ext hd⟩
  · exact absurd hd.symm (key _ _)
  · exact absurd hd (key _ _)
  · simp only [status_word] at hd
    have hd := List.append_cancel_left hd
    have hd := List.append_cancel_left hd
    have hd := List.append_cancel_right hd
    exact ⟨rfl, String.ext hd⟩

theorem head8_mem (g : List String) (K : List (List Char)) (hK : g.map head8 = K)
    (line : String) (hm : line ∈ g) : head8 line ∈ K := by
  rw [← hK]; exact List.mem_map_of_mem head8 hm

/-- Every line of the report that starts like the line of one of the seven
flags is that flag's line, printed with the flag's decoded bit. -/
theorem flag_lines_of_stdout (q : Nat → Nat → Regs) (line : String)
    (hm : line ∈ (expected q).machine.stdout) :
    (head8 line = "CET_SS (".data → 7 ≤ (query q 0 0).eax ∧
      line = feature_line "CET_SS (Shadow Stack)" (bit (query q 7 0).ecx 7)
        "CET: protects return addresses using a hardware shadow stack") ∧
    (head8 line = "CET_IBT ".data → 7 ≤ (query q 0 0).eax ∧
      line = feature_line "CET_IBT (Indirect Branch)" (bit (query q 7 0).edx 20)
        "CET: requires ENDBR64 at valid indirect call/jump targets") ∧
    (head8 line = "SMEP    ".data → 7 ≤ (query q 0 0).eax ∧
      line = feature_line "SMEP" (bit (query q 7 0).ebx 7)
        "Kernel hardening: prevents executing user pages in supervisor mode") ∧
    (head8 line = "SMAP    ".data → 7 ≤ (query q 0 0).eax ∧
      line = feature_line "SMAP" (bit (query q 7 0).ebx 20)
        "Kernel hardening: prevents supervisor access to user pages without opt-in") ∧
    (head8 line = "PAE     ".data →
      line = feature_line "PAE" (bit (query q 1 0).edx 6)
        "Physical Address Extension (historically related to NX in some setups)") ∧
    (head8 line = "SSE2    ".data →
      line = feature_line "SSE2" (bit (query q 1 0).edx 26)
        "Vector instruction set (common baseline on x86-64)") ∧
    (head8 line = "NX/XD   ".data → 0x80000001 ≤ (query q 0x80000000 0).eax ∧
      line = feature_line "NX/XD" (bit (query q 0x80000001 0).edx 20)
        "No-eXecute: allows pages to be marked non-executable (basis for DEP/NX)") := by
  simp only [expected, List.mem_append] at hm
  rcases hm with ((hm | hm) | hm) | hm
  · have hk := head8_mem _ _ (head8_header q) line hm
    refine ⟨?_, ?_, ?_, ?_, ?_, ?_, ?_⟩ <;> intro hh <;> rw [hh] at hk <;>
      exact absurd hk (by decide)
  · by_cases h7 : 7 ≤ (query q 0 0).eax
    · simp only [leaf7_group, h7, if_true, leaf7_features, leaf7_flags, List.cons_append,
        List.nil_append, List.mem_cons, List.mem_singleton, List.not_mem_nil, or_false] at hm
      rcases hm with rfl | rfl | rfl | rfl | rfl | rfl <;>
        refine ⟨?_, ?_, ?_, ?_, ?_, ?_, ?_⟩ <;> intro hh <;>
        first
          | exact ⟨h7, rfl⟩
          | (rw [head8_feature_line] at hh; exact absurd hh (by decide))
          | (rw [head8_leaf7_raw] at hh; exact absurd hh (by decide))
          | exact absurd hh (by decide)
    · have hk := head8_mem _ _ (head8_leaf7_group q) line hm
      simp only [h7, if_false] at hk
      refine ⟨?_, ?_, ?_, ?_, ?_, ?_, ?_⟩ <;> intro hh <;> rw [hh] at hk <;>
        exact absurd hk (by decide)
  · simp only [leaf1_group, leaf1_features, List.cons_append,
      List.nil_append, List.mem_cons, List.mem_singleton, List.not_mem_nil, or_false] at hm
    rcases hm with rfl | rfl | rfl | rfl <;>
      refine ⟨?_, ?_, ?_, ?_, ?_, ?_, ?_⟩ <;> intro hh <;>
      first
        | rfl
        | (rw [head8_feature_line] at hh; exact absurd hh (by decide))
        | (rw [head8_leaf1_raw] at hh; exact absurd hh (by decide))
        | exact absurd hh (by decide)
  · by_cases hE : 0x80000001 ≤ (query q 0x80000000 0).eax
    · simp only [ext1_group, hE, if_true, nx_line, List.mem_cons, List.mem_singleton,
        List.not_mem_nil, or_false] at hm
      rcases hm with rfl | rfl | rfl <;>
        refine ⟨?_, ?_, ?_, ?_, ?_, ?_, ?_⟩ <;> intro hh <;>
        first
          | exact ⟨hE, rfl⟩
          | (rw [head8_feature_line] at hh; exact absurd hh (by decide))
          | (rw [head8_ext1_raw] at hh; exact absurd hh (by decide))
          | exact absurd hh (by decide)
    · have hk := head8_mem _ _ (head8_ext1_group q) line hm
      simp only [hE, if_false] at hk
      refine ⟨?_, ?_, ?_, ?_, ?_, ?_, ?_⟩ <;> intro hh <;> rw [hh] at hk <;>
        exact absurd hk (by decide)

theorem head8_status_line (name : String) (b : Bool) (d : String) :
    head8 (status_line name b d) = head8 (pad28 name) := by
  unfold status_line
  have h := pad28_length name
  rw [head8_append, head8_append, head8_append, head8_append, head8_append]
  all_goals repeat (first | exact h | apply length_append_ge)

theorem status_line_mem_iff (L : List String) (name desc : String) (x i : Nat) (c : Prop)
    (key : List Char) (hkey : head8 (pad28 name) = key)
    (hin : c → feature_line name (bit x i) desc ∈ L)
    (hout : ∀ line ∈ L, head8 line = key → c ∧ line = feature_line name (bit x i) desc)
    (b : Bool) (d : String) :
    status_line name b d ∈ L ↔ (c ∧ b = x.testBit i ∧ d = desc) := by
  constructor
  · intro hm
    obtain ⟨hc, hl⟩ := hout _ hm (by rw [head8_status_line, hkey])
    rw [feature_line_bit] at hl
    exact ⟨hc, status_line_inj _ _ _ _ _ hl⟩
  · rintro ⟨hc, rfl, rfl⟩
    rw [← feature_line_bit]
    exact hin hc

/-- C14: `print_feature` appends one line made of the name padded to 28, the
word "SUPPORTED" when its argument is non-zero and "not supported" when it is
zero, and the description; the two words give different lines.  In a run of
`main`, a line with the name of one of the seven flags is in the report exactly
when the flag's group is decoded, and then it shows "SUPPORTED" if and only if
the flag's defining bit is 1, with the flag's description; so no line shows
"SUPPORTED" for a flag whose bit is 0. -/
theorem main_feature_lines (q : Nat → Nat → Regs) (stack : Nat → Nat) :
    (∀ name s d m, print_feature name s d m
      = ⟨m.queries, m.stdout ++ [status_line name (decide (s ≠ 0)) d]⟩) ∧
    (∀ name d, status_line name true d ≠ status_line name false d) ∧
    ∃ o, main (stable q) stack = some o ∧
      (∀ b d, status_line "CET_SS (Shadow Stack)" b d ∈ o.machine.stdout ↔
        (7 ≤ (query q 0 0).eax ∧ b = (query q 7 0).ecx.testBit 7 ∧
          d = "CET: protects return addresses using a hardware shadow stack")) ∧
      (∀ b d, status_line "CET_IBT (Indirect Branch)" b d ∈ o.machine.stdout ↔
        (7 ≤ (query q 0 0).eax ∧ b = (query q 7 0).edx.testBit 20 ∧
          d = "CET: requires ENDBR64 at valid indirect call/jump targets")) ∧
      (∀ b d, status_line "SMEP" b d ∈ o.machine.stdout ↔
        (7 ≤ (query q 0 0).eax ∧ b = (query q 7 0).ebx.testBit 7 ∧
          d = "Kernel hardening: prevents executing user pages in supervisor mode")) ∧
      (∀ b d, status_line "SMAP" b d ∈ o.machine.stdout ↔
        (7 ≤ (query q 0 0).eax ∧ b = (query q 7 0).ebx.testBit 20 ∧
          d = "Kernel hardening: prevents supervisor access to user pages without opt-in")) ∧
      (∀ b d, status_line "PAE" b d ∈ o.machine.stdout ↔
        (b = (query q 1 0).edx.testBit 6 ∧
          d = "Physical Address Extension (historically related to NX in some setups)")) ∧
      (∀ b d, status_line "SSE2" b d ∈ o.machine.stdout ↔
        (b = (query q 1 0).edx.testBit 26 ∧
          d = "Vector instruction set (common baseline on x86-64)")) ∧
      (∀ b d, status_line "NX/XD" b d ∈ o.machine.stdout ↔
        (0x80000001 ≤ (query q 0x80000000 0).eax ∧
          b = (query q 0x80000001 0).edx.testBit 20 ∧
          d = "No-eXecute: allows pages to be marked non-executable (basis for DEP/NX)")) := by
  refine ⟨?_, ?_, expected q, main_stable q stack, ?_, ?_, ?_, ?_, ?_, ?_, ?_⟩
  · intro name s d m
    simp [print_feature, printf, feature_line_eq_status]
  · intro name d h
    exact absurd (status_line_inj _ _ _ _ _ h).1 (by decide)
  · intro b d
    refine status_line_mem_iff _ _ _ _ _ _ _ (by decide) ?_
      (fun line hm hh => (flag_lines_of_stdout q line hm).1 hh) b d
    intro h7; simp [expected, leaf7_group, leaf7_features, leaf7_flags, h7]
  · intro b d
    refine status_line_mem_iff _ _ _ _ _ _ _ (by decide) ?_
      (fun line hm hh => (flag_lines_of_stdout q line hm).2.1 hh) b d
    intro h7; simp [expected, leaf7_group, leaf7_features, leaf7_flags, h7]
  · intro b d
    refine status_line_mem_iff _ _ _ _ _ _ _ (by decide) ?_
      (fun line hm hh => (flag_lines_of_stdout q line hm).2.2.1 hh) b d
    intro h7; simp [expected, leaf7_group, leaf7_features, leaf7_flags, h7]
  · intro b d
    refine status_line_mem_iff _ _ _ _ _ _ _ (by decide) ?_
      (fun line hm hh => (flag_lines_of_stdout q line hm).2.2.2.1 hh) b d
    intro h7; simp [expected, leaf7_group, leaf7_features, leaf7_flags, h7]
  · intro b d
    refine (status_line_mem_iff _ _ _ _ _ True _ (by decide) ?_
      (fun line hm hh => ⟨trivial, (flag_lines_of_stdout q line hm).2.2.2.2.1 hh⟩) b d).trans
      ⟨fun h => h.2, fun h => ⟨trivial, h⟩⟩
    intro _; simp [expected, leaf1_group, leaf1_features]
  · intro b d
    refine (status_line_mem_iff _ _ _ _ _ True _ (by decide) ?_
      (fun line hm hh => ⟨trivial, (flag_lines_of_stdout q line hm).2.2.2.2.2.1 hh⟩) b d).trans
      ⟨fun h => h.2, fun h => ⟨trivial, h⟩⟩
    intro _; simp [expected, leaf1_group, leaf1_features]
  · intro b d
    refine status_line_mem_iff _ _ _ _ _ _ _ (by decide) ?_
      (fun line hm hh => (flag_lines_of_stdout q line hm).2.2.2.2.2.2 hh) b d
    intro hE; simp [expected, ext1_group, nx_line, hE]

theorem get_brand_string_short (hw : Hardware) (out : Buf) (m : Machine)
    (h : out.bytes.length < 49) : get_brand_string hw out m = none := by
  have hm : memset out 0 49 = none := by
    simp [memset, Buf.store]; omega
  simp [get_brand_string, hm]

/-- C15: on a 49-byte destination `get_brand_string` performs every store
inside the buffer.  It first clears bytes 0..48.  On the supported path the
twelve 4-byte stores are at offsets 0, 4, ..., 44, so that each byte 0..47 lies
in exactly one of them, and the terminator is stored at index 48; on the
unsupported path the 28 characters of the placeholder and its terminator take
bytes 0..28.  No store reaches index 49. -/
theorem get_brand_string_writes (q : Nat → Nat → Regs) (out : Buf) (m : Machine)
    (h : out.bytes.length = 49) :
    ∃ b m' ws, get_brand_string (stable q) out m = some (b, m') ∧
      b.bytes.length = 49 ∧
      b.writes = out.writes ++ ws ∧
      (∀ w ∈ ws, w.1 + w.2 ≤ 49) ∧
      (¬ (query q 0x80000000 0).eax < 0x80000004 →
        ws = [(0, 49)] ++ (List.range 12).map (fun k => (4 * k, 4)) ++ [(48, 1)] ∧
        (∀ i, i < 48 → ∃ k, (k < 12 ∧ 4 * k ≤ i ∧ i < 4 * k + 4) ∧
          ∀ k', (k' < 12 ∧ 4 * k' ≤ i ∧ i < 4 * k' + 4) → k' = k)) ∧
      ((query q 0x80000000 0).eax < 0x80000004 →
        ws = [(0, 49), (0, 29)] ∧ (lit "(brand string not supported)").length + 1 = 29) := by
  refine ⟨_, _, expected_brand_writes q, get_brand_string_stable q out m h, ?_, rfl, ?_, ?_, ?_⟩
  · show (expected_brand q).length = 49
    unfold expected_brand
    split
    · decide
    · simp [brand_bytes, regs_bytes, le_bytes]
  · intro w hw
    unfold expected_brand_writes at hw
    split at hw
    · simp only [List.mem_cons, List.mem_singleton, List.not_mem_nil, or_false] at hw
      rcases hw with rfl | rfl <;> decide
    · simp only [List.mem_cons, List.mem_singleton, List.not_mem_nil, or_false] at hw
      rcases hw with rfl | rfl | rfl | rfl | rfl | rfl | rfl | rfl | rfl | rfl | rfl | rfl | rfl
        | rfl <;> decide
  · intro hge
    refine ⟨by simp only [expected_brand_writes, hge, if_false]; decide, ?_⟩
    intro i hi
    refine ⟨i / 4, by omega, ?_⟩
    intro k' hk'
    omega
  · intro hlt
    exact ⟨by simp only [expected_brand_writes, hlt, if_true], by decide⟩

theorem get_brand_string_writes_witness :
    (Buf.uninit (fun i => i + 65) 49).bytes.length = 49 ∧
    ∃ b m' ws, get_brand_string (stable sample_q) (Buf.uninit (fun i => i + 65) 49) ⟨[], []⟩
        = some (b, m') ∧
      b.bytes.length = 49 ∧
      b.writes = (Buf.uninit (fun i => i + 65) 49).writes ++ ws ∧
      (∀ w ∈ ws, w.1 + w.2 ≤ 49) ∧
      (¬ (query sample_q 0x80000000 0).eax < 0x80000004 →
        ws = [(0, 49)] ++ (List.range 12).map (fun k => (4 * k, 4)) ++ [(48, 1)] ∧
        (∀ i, i < 48 → ∃ k, (k < 12 ∧ 4 * k ≤ i ∧ i < 4 * k + 4) ∧
          ∀ k', (k' < 12 ∧ 4 * k' ≤ i ∧ i < 4 * k' + 4) → k' = k)) ∧
      ((query sample_q 0x80000000 0).eax < 0x80000004 →
        ws = [(0, 49), (0, 29)] ∧ (lit "(brand string not supported)").length + 1 = 29) :=
  ⟨by decide,
   get_brand_string_writes sample_q (Buf.uninit (fun i => i + 65) 49) ⟨[], []⟩ (by decide)⟩

/-- Without stability the two reads of query(0x80000000,0) can differ: `main`
then prints 0x80000008 as max extended leaf next to the brand placeholder. -/
theorem flaky_report_inconsistent :
    (main flaky_hw (fun _ => 0)).map
        (fun o => (o.max_extended_leaf, o.machine.stdout.get? 1, o.machine.stdout.get? 3))
      = some (0x80000008, some "Brand String     : (brand string not supported)\n",
          some "Max Extended Leaf: 0x80000008\n\n") := by
  decide

/-- C16, as stated, fails in its "only if" half: on a stable processor with
max extended leaf 0x80000004 whose brand registers spell the placeholder text,
the brand string line shows the placeholder although the value printed on the
Max Extended Leaf line is not below 0x80000004. -/
theorem main_placeholder_line_not_only_if :
    (main (stable spoof_q) (fun _ => 0)).map
        (fun o => (o.machine.stdout.get? 1, o.machine.stdout.get? 3, o.max_extended_leaf))
      = some (some "Brand String     : (brand string not supported)\n",
          some "Max Extended Leaf: 0x80000004\n\n", 0x80000004) ∧
    (main (stable old_q) (fun _ => 0)).map (fun o => o.machine.stdout.get? 1)
      = some (some "Brand String     : (brand string not supported)\n") ∧
    ¬ (query spoof_q 0x80000000 0).eax < 0x80000004 := by
  decide

/-- C16 (amended): on a processor whose answers depend on the selector pair
only, the read of query(0x80000000,0) by `main` and the one by
`get_brand_string` agree, and the report is consistent in this sense: the value
on the Max Extended Leaf line is that common value; when it is below 0x80000004
the brand string line shows the placeholder; when it is not, the brand string
line shows the decoded brand registers (which read as the placeholder only when
the registers themselves spell it) and the legacy-extended (NX) group is
decoded too. -/
theorem main_self_consistent (hw : Hardware) (stack : Nat → Nat)
    (hpure : ∀ n n' leaf sub, hw n leaf sub = hw n' leaf sub) :
    ∃ o, main hw stack = some o ∧
      (hw 2 0x80000000 0).trunc.eax = (hw 3 0x80000000 0).trunc.eax ∧
      o.max_extended_leaf = (hw 2 0x80000000 0).trunc.eax ∧
      o.machine.stdout.get? 3
        = some ("Max Extended Leaf: 0x" ++ hex8 o.max_extended_leaf ++ "\n\n") ∧
      o.machine.stdout.get? 1 = some ("Brand String     : " ++ ctext o.brand.bytes ++ "\n") ∧
      (o.max_extended_leaf < 0x80000004 →
        o.brand.bytes = placeholder_bytes ∧
        ctext o.brand.bytes = "(brand string not supported)") ∧
      (¬ o.max_extended_leaf < 0x80000004 →
        o.brand.bytes = brand_bytes (query (hw 0) 0x80000002 0) (query (hw 0) 0x80000003 0)
          (query (hw 0) 0x80000004 0) ∧
        o.nx.isSome = true) ∧
      (o.brand.bytes = placeholder_bytes ↔
        (o.max_extended_leaf < 0x80000004 ∨
          brand_bytes (query (hw 0) 0x80000002 0) (query (hw 0) 0x80000003 0)
            (query (hw 0) 0x80000004 0) = placeholder_bytes)) := by
  obtain ⟨o, ho, -, -, hme, hbrand, hl1, hl3, hnx, -⟩ := main_total hw stack
  have e32 : hw 3 0x80000000 0 = hw 2 0x80000000 0 := hpure _ _ _ _
  have e4 : (hw 4 0x80000002 0).trunc = query (hw 0) 0x80000002 0 := by
    rw [hpure 4 0]; rfl
  have e5 : (hw 5 0x80000003 0).trunc = query (hw 0) 0x80000003 0 := by
    rw [hpure 5 0]; rfl
  have e6 : (hw 6 0x80000004 0).trunc = query (hw 0) 0x80000004 0 := by
    rw [hpure 6 0]; rfl
  rw [e32, ← hme, e4, e5, e6] at hbrand
  refine ⟨o, ho, by rw [e32], hme, hl3, hl1, ?_, ?_, ?_⟩
  · intro hlt
    rw [hbrand, if_pos hlt]
    exact ⟨rfl, ctext_placeholder⟩
  · intro hge
    rw [hbrand, if_neg hge]
    exact ⟨rfl, hnx.2 (by omega)⟩
  · by_cases hlt : o.max_extended_leaf < 0x80000004
    · simp [hbrand, hlt]
    · simp [hbrand, hlt]

theorem main_self_consistent_witness :
    (∀ n n' leaf sub, stable sample_q n leaf sub = stable sample_q n' leaf sub) ∧
    ∃ o, main (stable sample_q) (fun _ => 0) = some o ∧
      o.max_extended_leaf = 0x80000008 ∧
      o.machine.stdout.get? 3 = some "Max Extended Leaf: 0x80000008\n\n" ∧
      o.nx.isSome = true := by
  refine ⟨fun _ _ _ _ => rfl, ?_⟩
  obtain ⟨o, ho, -, hme, hl3, -, -, hge, -⟩ :=
    main_self_consistent (stable sample_q) (fun _ => 0) (fun _ _ _ _ => rfl)
  have hv : o.max_extended_leaf = 0x80000008 := by rw [hme]; decide
  refine ⟨o, ho, hv, ?_, (hge (by rw [hv]; decide)).2⟩
  rw [hl3, hv]
  decide

end CpuidFeatures
